import Mathlib

/-!
Shallow embedding of the scoring and aggregation engine of the EA predictor app
(`src/js/calculations.js`): `calculatePoints`, `calculatePlayerStats`,
`getLatestPlayerName` and `sortPlayersByStats`, together with theorems about
the specified behaviour.

JavaScript modelling conventions:
* a score field holds a `JsVal`: a number, `null`, or `undefined` (the value
  read from an absent property);
* string-valued fields are `Option String` (`none` for an absent property;
  JavaScript truthiness makes `none` and the empty string interchangeable in
  every `||` position the source uses);
* objects keyed by strings are association lists updated in place;
* `Array.prototype.sort` is modelled by a stable insertion sort with the
  source's comparator, and `localeCompare` by code-point comparison.
-/

/-- A JavaScript value sitting in a score field: a number, `null`, or
`undefined` (reading an absent property yields `undefined`). -/
inductive JsVal where
  | num (n : Int)
  | null
  | undef
deriving DecidableEq, Repr

/-- JavaScript `ToNumber` on a score field, `none` standing for `NaN`
(`Number(null) = 0`, `Number(undefined) = NaN`). -/
def JsVal.toNum : JsVal → Option Int
  | num n => some n
  | null => some 0
  | undef => none

/-- JavaScript `a > b` on score fields (`false` whenever a side is `NaN`). -/
def jsGt (a b : JsVal) : Bool :=
  match a.toNum, b.toNum with
  | some x, some y => y < x
  | _, _ => false

/-- JavaScript `a < b` on score fields (`false` whenever a side is `NaN`). -/
def jsLt (a b : JsVal) : Bool :=
  match a.toNum, b.toNum with
  | some x, some y => x < y
  | _, _ => false

/-- JavaScript strict equality `===` on score fields (no coercion). -/
def jsStrictEq (a b : JsVal) : Bool :=
  match a, b with
  | .num x, .num y => x == y
  | .null, .null => true
  | .undef, .undef => true
  | _, _ => false

/-- JavaScript subtraction on score fields, `none` standing for `NaN`. -/
def jsSub (a b : JsVal) : Option Int :=
  match a.toNum, b.toNum with
  | some x, some y => some (x - y)
  | _, _ => none

/-- JavaScript `Math.abs(x) === Math.abs(y)` where either side may be `NaN`
(`NaN === NaN` is `false`). -/
def jsAbsEq (a b : Option Int) : Bool :=
  match a, b with
  | some x, some y => x.natAbs == y.natAbs
  | _, _ => false

/-- Truthiness of an optional string: absent (or `null`) and `''` are falsy. -/
def strTruthy : Option String → Bool
  | some s => !(s == "")
  | none => false

/-- JavaScript `(a || b || '')` for two optional string fields. -/
def jsStrOr2 (a b : Option String) : String :=
  if strTruthy a then a.getD "" else if strTruthy b then b.getD "" else ""

/-- JavaScript `(a || d)` where `d` is an ordinary string default. -/
def jsStrOrD (a : Option String) (d : String) : String :=
  if strTruthy a then a.getD "" else d

/-- Lower-casing of a string, character by character (JavaScript
`String.prototype.toLowerCase` on the identifiers the source compares). -/
def jsToLower (s : String) : String := ⟨s.data.map Char.toLower⟩

/-- Code-point lexicographic strict order on character lists, the model used
for `localeCompare`. -/
def strLtb : List Char → List Char → Bool
  | [], [] => false
  | [], _ :: _ => true
  | _ :: _, [] => false
  | a :: as, b :: bs =>
      if a.toNat < b.toNat then true
      else if b.toNat < a.toNat then false
      else strLtb as bs

/-- Association-list lookup, modelling JavaScript property read `m[k]`. -/
def alookup {α : Type} (k : String) : List (String × α) → Option α
  | [] => none
  | (k₀, v) :: t => if k₀ = k then some v else alookup k t

/-- Association-list update, modelling JavaScript property write `m[k] = v`
(replaces in place, appends a fresh key at the end). -/
def aset {α : Type} (k : String) (v : α) : List (String × α) → List (String × α)
  | [] => [(k, v)]
  | (k₀, v₀) :: t => if k₀ = k then (k, v) :: t else (k₀, v₀) :: aset k v t

/-- A game record (`src/js/calculations.js` reads both capitalisations of its
fields, so both are carried). -/
structure Game where
  id : String
  status : Option String
  Status : Option String
  homeScore : JsVal
  HomeScore : JsVal
  awayScore : JsVal
  AwayScore : JsVal
  fecha : Option String
  Fecha : Option String
deriving DecidableEq, Repr

/-- A prediction record. -/
structure Prediction where
  userId : Option String
  gameId : String
  predictedHomeScore : JsVal
  predictedAwayScore : JsVal
  playerName : Option String
  timestamp : Option Int
deriving DecidableEq, Repr

/-- Normalised game status: `(game.status || game.Status || '').toLowerCase()`
(line 31 of `calculations.js`). -/
def gameStatusOf (game : Game) : String := jsToLower (jsStrOr2 game.status game.Status)

/-- Effective home score: `game.homeScore !== undefined ? game.homeScore :
game.HomeScore` (line 32). -/
def effHomeScore (game : Game) : JsVal :=
  if game.homeScore ≠ JsVal.undef then game.homeScore else game.HomeScore

/-- Effective away score (line 33). -/
def effAwayScore (game : Game) : JsVal :=
  if game.awayScore ≠ JsVal.undef then game.awayScore else game.AwayScore

/-- Outcome label derived by comparing two scores (lines 52-55): `'HW'` when
home is greater, `'AW'` when smaller, `'D'` otherwise. -/
def outcomeStr (home away : JsVal) : String :=
  if jsGt home away then "HW" else if jsLt home away then "AW" else "D"

/-- `calculatePoints` (lines 29-76 of `calculations.js`): `none` models the
JavaScript `null` "not yet scoreable" sentinel.  The source accumulates
`points` through four independent `if`s (`points += 5`, `+= 2`, `+= 2`,
`+= 1`, lines 62-73); that accumulation is written here as the equal sum of
the four guarded addends, in the same order. -/
def calculatePoints (prediction : Prediction) (game : Game) : Option Nat :=
  if gameStatusOf game ≠ "finished" ∨ effHomeScore game = JsVal.null ∨
      effAwayScore game = JsVal.null then
    none
  else if prediction.predictedHomeScore = JsVal.null ∨
      prediction.predictedAwayScore = JsVal.null then
    some 0
  else
    some
      ((if outcomeStr prediction.predictedHomeScore prediction.predictedAwayScore =
            outcomeStr (effHomeScore game) (effAwayScore game) then 5 else 0) +
       (if jsStrictEq prediction.predictedHomeScore (effHomeScore game) then 2 else 0) +
       (if jsStrictEq prediction.predictedAwayScore (effAwayScore game) then 2 else 0) +
       (if jsAbsEq (jsSub prediction.predictedHomeScore prediction.predictedAwayScore)
            (jsSub (effHomeScore game) (effAwayScore game)) then 1 else 0))

/-- Per-player aggregation record (`totalPoints`, `fechasWonCount`,
`perfectScoresCount`, `gamesParticipated`). -/
structure PlayerStats where
  totalPoints : Nat
  fechasWonCount : Nat
  perfectScoresCount : Nat
  gamesParticipated : Nat
deriving DecidableEq, Repr

/-- The all-zero stats a player is initialised with (lines 106-111). -/
def PlayerStats.zero : PlayerStats := ⟨0, 0, 0, 0⟩

/-- `pred.userId || 'unknown'` (lines 104 and 117). -/
def uidOf (p : Prediction) : String := jsStrOrD p.userId "unknown"

/-- Normalised status used by the aggregator: `(game.Status || game.status ||
'').toLowerCase()` (line 123; note the capital field wins here). -/
def aggStatusOf (game : Game) : String := jsToLower (jsStrOr2 game.Status game.status)

/-- Aggregator's effective home score: `game.HomeScore !== undefined ?
game.HomeScore : game.homeScore` (line 124). -/
def aggHomeScore (game : Game) : JsVal :=
  if game.HomeScore ≠ JsVal.undef then game.HomeScore else game.homeScore

/-- Aggregator's effective away score (line 125). -/
def aggAwayScore (game : Game) : JsVal :=
  if game.AwayScore ≠ JsVal.undef then game.AwayScore else game.awayScore

/-- The `normalizedGame` object literal built at lines 122-126 (only the
lower-case `status`, `homeScore`, `awayScore` properties exist on it). -/
def normalizedGame (game : Game) : Game :=
  { id := ""
    status := some (aggStatusOf game)
    Status := none
    homeScore := aggHomeScore game
    HomeScore := JsVal.undef
    awayScore := aggAwayScore game
    AwayScore := JsVal.undef
    fecha := none
    Fecha := none }

/-- `game.Fecha || game.fecha` guarded by `if (fecha)` (lines 140-141):
`none` when the resulting value is falsy. -/
def fechaOf (game : Game) : Option String :=
  if strTruthy game.Fecha then game.Fecha
  else if strTruthy game.fecha then game.fecha else none

/-- The `gameMap` built at lines 98-100 (`gameMap[game.id] = game`). -/
def buildGameMap (games : List Game) : List (String × Game) :=
  games.foldl (fun m g => aset g.id g m) []

/-- First pass of `calculatePlayerStats` (lines 103-113): initialise an entry
for every userId appearing in the predictions. -/
def initPlayerStats (predictions : List Prediction) : List (String × PlayerStats) :=
  predictions.foldl
    (fun ps p =>
      let userId := uidOf p
      if (alookup userId ps).isSome then ps else aset userId PlayerStats.zero ps)
    []

/-- Update of one player's running stats by a scored prediction
(lines 131-137). -/
def addPoints (s : PlayerStats) (points : Nat) : PlayerStats :=
  let s := { s with totalPoints := s.totalPoints + points,
                    gamesParticipated := s.gamesParticipated + 1 }
  if points = 10 then { s with perfectScoresCount := s.perfectScoresCount + 1 } else s

/-- Stats component of one iteration of the scoring pass (lines 116-152). -/
def scoreOnly (gameMap : List (String × Game)) (ps : List (String × PlayerStats))
    (p : Prediction) : List (String × PlayerStats) :=
  let userId := uidOf p
  match alookup p.gameId gameMap with
  | none => ps
  | some game =>
      match calculatePoints p (normalizedGame game) with
      | none => ps
      | some points => aset userId (addPoints ((alookup userId ps).getD PlayerStats.zero) points) ps

/-- Fecha-scores component of one iteration of the scoring pass
(lines 139-149). -/
def fechaOnly (gameMap : List (String × Game)) (fs : List (String × List (String × Nat)))
    (p : Prediction) : List (String × List (String × Nat)) :=
  let userId := uidOf p
  match alookup p.gameId gameMap with
  | none => fs
  | some game =>
      match calculatePoints p (normalizedGame game) with
      | none => fs
      | some points =>
          match fechaOf game with
          | none => fs
          | some fecha =>
              let us := (alookup fecha fs).getD []
              let us := aset userId ((alookup userId us).getD 0 + points) us
              aset fecha us fs

/-- One iteration of the scoring pass over predictions (lines 116-152),
threading both the player stats and the per-fecha score table. -/
def scoreStep (gameMap : List (String × Game))
    (acc : List (String × PlayerStats) × List (String × List (String × Nat)))
    (p : Prediction) :
    List (String × PlayerStats) × List (String × List (String × Nat)) :=
  (scoreOnly gameMap acc.1 p, fechaOnly gameMap acc.2 p)

/-- `Math.max(...scores)` over the values of a fecha's score table (the
source only evaluates it on a non-empty table). -/
def maxValues (us : List (String × Nat)) : Nat := us.foldl (fun m e => max m e.2) 0

/-- Credit one player's entry of a fecha table with a week win when it holds
the fecha's maximum score (lines 162-166). -/
def creditStep (maxScore : Nat) (ps : List (String × PlayerStats)) (e : String × Nat) :
    List (String × PlayerStats) :=
  if e.2 = maxScore then
    match alookup e.1 ps with
    | some s => aset e.1 { s with fechasWonCount := s.fechasWonCount + 1 } ps
    | none => ps
  else ps

/-- One iteration of the fecha-wins pass (lines 155-168): credit every player
whose fecha total equals the fecha maximum. -/
def fechaWinStep (ps : List (String × PlayerStats)) (entry : String × List (String × Nat)) :
    List (String × PlayerStats) :=
  if 0 < entry.2.length then entry.2.foldl (creditStep (maxValues entry.2)) ps else ps

/-- The per-fecha score table produced by the scoring pass. -/
def fechaScoresOf (games : List Game) (predictions : List Prediction) :
    List (String × List (String × Nat)) :=
  predictions.foldl (fechaOnly (buildGameMap games)) []

/-- `calculatePlayerStats` (lines 92-171 of `calculations.js`), returning the
`playerStats` object as an insertion-ordered association list. -/
def calculatePlayerStats (games : List Game) (predictions : List Prediction) :
    List (String × PlayerStats) :=
  let gameMap := buildGameMap games
  let start := initPlayerStats predictions
  let result := predictions.foldl (scoreStep gameMap) (start, [])
  result.2.foldl fechaWinStep result.1

/-- `pred.timestamp ? new Date(pred.timestamp).getTime() : 0` (lines 257-258),
with the timestamp modelled directly as its millisecond value. -/
def predTime (p : Prediction) : Int :=
  match p.timestamp with
  | some t => t
  | none => 0

/-- `getLatestPlayerName` (lines 251-266 of `calculations.js`). -/
def getLatestPlayerName (predictions : List Prediction) (userId : String) : String :=
  let userPredictions := predictions.filter (fun p => p.userId == some userId)
  match userPredictions with
  | [] => userId
  | h :: t =>
      let latest := (h :: t).foldl (fun latest pred =>
        if predTime latest < predTime pred then pred else latest) h
      jsStrOrD latest.playerName userId

/-- `nameA.localeCompare(nameB)` modelled as code-point comparison returning
a negative, zero or positive integer. -/
def localeCompare (a b : String) : Int :=
  if strLtb a.data b.data then -1 else if strLtb b.data a.data then 1 else 0

/-- The comparator of `sortPlayersByStats` (lines 277-294). -/
def comparePlayers (predictions : List Prediction) (a b : String × PlayerStats) : Int :=
  if b.2.totalPoints ≠ a.2.totalPoints then (b.2.totalPoints : Int) - a.2.totalPoints
  else if b.2.fechasWonCount ≠ a.2.fechasWonCount then
    (b.2.fechasWonCount : Int) - a.2.fechasWonCount
  else if b.2.perfectScoresCount ≠ a.2.perfectScoresCount then
    (b.2.perfectScoresCount : Int) - a.2.perfectScoresCount
  else
    localeCompare (getLatestPlayerName predictions a.1) (getLatestPlayerName predictions b.1)

/-- `sortPlayersByStats` (lines 275-295): `Object.entries` of the stats object
sorted by the comparator (JavaScript's sort is stable; a stable insertion sort
models it). -/
def sortPlayersByStats (playerStats : List (String × PlayerStats))
    (predictions : List Prediction) : List (String × PlayerStats) :=
  List.insertionSort (fun a b => comparePlayers predictions a b ≤ 0) playerStats

/-- Convenience constructor for a concrete game record. -/
def mkGame (i : String) (st St : Option String) (hs Hs aw Aw : JsVal)
    (fe Fe : Option String) : Game :=
  { id := i
    status := st
    Status := St
    homeScore := hs
    HomeScore := Hs
    awayScore := aw
    AwayScore := Aw
    fecha := fe
    Fecha := Fe }

/-- Convenience constructor for a concrete prediction record. -/
def mkPred (u : Option String) (g : String) (ph pa : JsVal) (nm : Option String)
    (ts : Option Int) : Prediction :=
  { userId := u
    gameId := g
    predictedHomeScore := ph
    predictedAwayScore := pa
    playerName := nm
    timestamp := ts }

lemma outcomeStr_num_eq_iff (h a H A : Int) :
    (outcomeStr (JsVal.num h) (JsVal.num a) = outcomeStr (JsVal.num H) (JsVal.num A)) ↔
      ((a < h ∧ A < H) ∨ (h < a ∧ H < A) ∨ (h = a ∧ H = A)) := by
  unfold outcomeStr jsGt jsLt JsVal.toNum
  rcases lt_trichotomy h a with hc | hc | hc <;> rcases lt_trichotomy H A with hC | hC | hC <;>
    simp [hc, hC, not_lt_of_gt, lt_asymm] <;> omega

lemma calculatePoints_num (p : Prediction) (g : Game) (h a H A : Int)
    (hph : p.predictedHomeScore = JsVal.num h) (hpa : p.predictedAwayScore = JsVal.num a)
    (hst : gameStatusOf g = "finished")
    (hhs : effHomeScore g = JsVal.num H) (has : effAwayScore g = JsVal.num A) :
    calculatePoints p g = some (
      (if (a < h ∧ A < H) ∨ (h < a ∧ H < A) ∨ (h = a ∧ H = A) then 5 else 0) +
      (if h = H then 2 else 0) + (if a = A then 2 else 0) +
      (if (h - a).natAbs = (H - A).natAbs then 1 else 0)) := by
  unfold calculatePoints
  rw [hst, hhs, has, hph, hpa]
  rw [if_neg (by simp)]
  rw [if_neg (by simp)]
  congr 1
  congr 1
  · congr 1
    · congr 1
      · by_cases hoc : (a < h ∧ A < H) ∨ (h < a ∧ H < A) ∨ (h = a ∧ H = A)
        · rw [if_pos ((outcomeStr_num_eq_iff h a H A).2 hoc), if_pos hoc]
        · rw [if_neg (fun hh => hoc ((outcomeStr_num_eq_iff h a H A).1 hh)), if_neg hoc]
      · simp [jsStrictEq]
    · simp [jsStrictEq]
  · simp [jsAbsEq, jsSub, JsVal.toNum]

/-- C1: for a prediction with both predicted scores present and a finished
game with both actual scores present, `calculatePoints` is exactly the sum of
the four independent components: 5 for the matching outcome (home win when
home is greater, away win when smaller, draw when equal, on either side), 2
for the exact home score, 2 for the exact away score, and 1 for the matching
absolute goal difference. -/
theorem claim1_points_component_sum (p : Prediction) (g : Game) (h a H A : Int)
    (hph : p.predictedHomeScore = JsVal.num h) (hpa : p.predictedAwayScore = JsVal.num a)
    (hst : gameStatusOf g = "finished")
    (hhs : effHomeScore g = JsVal.num H) (has : effAwayScore g = JsVal.num A) :
    calculatePoints p g = some (
      (if (a < h ∧ A < H) ∨ (h < a ∧ H < A) ∨ (h = a ∧ H = A) then 5 else 0) +
      (if h = H then 2 else 0) + (if a = A then 2 else 0) +
      (if (h - a).natAbs = (H - A).natAbs then 1 else 0)) :=
  calculatePoints_num p g h a H A hph hpa hst hhs has

/-- Witness for C1 at the spec's concrete scenario (prediction 3-1 against a
finished 2-1 game: 5 outcome + 2 away = 7). -/
theorem claim1_points_component_sum_witness :
    calculatePoints (mkPred (some "B") "g1" (JsVal.num 3) (JsVal.num 1) (some "Bob") (some 2))
      (mkGame "g1" (some "finished") none (JsVal.num 2) JsVal.undef (JsVal.num 1) JsVal.undef
        (some "W1") none) = some 7 := by
  rw [claim1_points_component_sum _ _ 3 1 2 1 rfl rfl (by decide) (by decide) (by decide)]
  decide

/-- C4: for a finished game with actual numeric scores and a prediction with
numeric entered scores, the result is a defined score in `[0, 10]`, and it is
`10` exactly when both scores match. -/
theorem claim4_range_and_perfect (p : Prediction) (g : Game) (h a H A : Int)
    (hph : p.predictedHomeScore = JsVal.num h) (hpa : p.predictedAwayScore = JsVal.num a)
    (hst : gameStatusOf g = "finished")
    (hhs : effHomeScore g = JsVal.num H) (has : effAwayScore g = JsVal.num A) :
    ∃ pts : Nat, calculatePoints p g = some pts ∧ pts ≤ 10 ∧ (pts = 10 ↔ (h = H ∧ a = A)) := by
  refine ⟨_, calculatePoints_num p g h a H A hph hpa hst hhs has, ?_, ?_⟩
  · split_ifs <;> omega
  · constructor
    · intro h10
      split_ifs at h10 <;> omega
    · rintro ⟨rfl, rfl⟩
      have h1 : (a < h ∧ a < h) ∨ (h < a ∧ h < a) ∨ (h = a ∧ h = a) := by omega
      rw [if_pos h1, if_pos rfl, if_pos rfl, if_pos rfl]

/-- Witness for C4 (perfect 2-1 prediction on a finished 2-1 game). -/
theorem claim4_range_and_perfect_witness :
    ∃ pts : Nat,
      calculatePoints (mkPred (some "A") "g1" (JsVal.num 2) (JsVal.num 1) (some "Ann") (some 1))
        (mkGame "g1" (some "finished") none (JsVal.num 2) JsVal.undef (JsVal.num 1) JsVal.undef
          (some "W1") none) = some pts ∧
      pts ≤ 10 ∧ (pts = 10 ↔ ((2 : Int) = 2 ∧ (1 : Int) = 1)) :=
  claim4_range_and_perfect _ _ 2 1 2 1 rfl rfl (by decide) (by decide) (by decide)

/-- C3 counterexample: a game whose status is `'finished'` but whose actual
score fields are entirely absent (`undefined` on both casings) is not caught
by the `=== null` guard; `calculatePoints` returns `0`, not the sentinel, for
a prediction with entered scores. -/
theorem claim3_counterexample :
    gameStatusOf (mkGame "g3" (some "finished") none JsVal.undef JsVal.undef JsVal.undef
        JsVal.undef none none) = "finished" ∧
    effHomeScore (mkGame "g3" (some "finished") none JsVal.undef JsVal.undef JsVal.undef
        JsVal.undef none none) = JsVal.undef ∧
    effAwayScore (mkGame "g3" (some "finished") none JsVal.undef JsVal.undef JsVal.undef
        JsVal.undef none none) = JsVal.undef ∧
    calculatePoints (mkPred (some "A") "g3" (JsVal.num 1) (JsVal.num 0) none none)
        (mkGame "g3" (some "finished") none JsVal.undef JsVal.undef JsVal.undef
          JsVal.undef none none) = some 0 := by
  decide

/-- C3 amended: `calculatePoints` returns the `null` sentinel (and never `0`
or an error) exactly when the game's normalised status is not `'finished'` or
either effective actual score is the JavaScript value `null`; an actual score
that is entirely absent (`undefined`) is not detected by the guard. -/
theorem claim3_sentinel_iff_amended (p : Prediction) (g : Game) :
    calculatePoints p g = none ↔
      (gameStatusOf g ≠ "finished" ∨ effHomeScore g = JsVal.null ∨
        effAwayScore g = JsVal.null) := by
  unfold calculatePoints
  by_cases hc : gameStatusOf g ≠ "finished" ∨ effHomeScore g = JsVal.null ∨
      effAwayScore g = JsVal.null
  · simp [hc]
  · simp only [if_neg hc]
    constructor
    · intro hcontra
      by_cases hp : p.predictedHomeScore = JsVal.null ∨ p.predictedAwayScore = JsVal.null <;>
        simp [hp] at hcontra
    · intro hcontra
      exact absurd hcontra hc

section AListLemmas

variable {α : Type}

lemma alookup_aset_self (k : String) (v : α) (m : List (String × α)) :
    alookup k (aset k v m) = some v := by
  induction m with
  | nil => simp [aset, alookup]
  | cons e t ih =>
      obtain ⟨k₀, v₀⟩ := e
      by_cases hk : k₀ = k
      · simp [aset, if_pos hk, alookup]
      · simp only [aset, if_neg hk, alookup, if_neg hk, ih]

lemma alookup_aset_ne (k k₁ : String) (v : α) (m : List (String × α)) (hk : k₁ ≠ k) :
    alookup k (aset k₁ v m) = alookup k m := by
  induction m with
  | nil => simp [aset, alookup, hk]
  | cons e t ih =>
      obtain ⟨k₀, v₀⟩ := e
      by_cases h0 : k₀ = k₁
      · have hk0 : k₀ ≠ k := fun hc => hk (h0.symm.trans hc)
        rw [show aset k₁ v ((k₀, v₀) :: t) = (k₁, v) :: t from by simp [aset, h0]]
        simp [alookup, hk, hk0]
      · simp only [aset, if_neg h0]
        by_cases h2 : k₀ = k
        · simp [alookup, h2]
        · simp [alookup, h2, ih]

lemma alookup_isSome_iff_mem (k : String) (m : List (String × α)) :
    (alookup k m).isSome ↔ k ∈ m.map Prod.fst := by
  induction m with
  | nil => simp [alookup]
  | cons e t ih =>
      obtain ⟨k₀, v₀⟩ := e
      by_cases hk : k₀ = k
      · subst hk
        simp [alookup]
      · simp [alookup, hk, ih, Ne.symm hk]

lemma alookup_eq_none_iff_not_mem (k : String) (m : List (String × α)) :
    alookup k m = none ↔ k ∉ m.map Prod.fst := by
  rw [← alookup_isSome_iff_mem, Option.isSome_iff_ne_none]
  tauto

lemma mem_of_alookup_eq_some (k : String) (v : α) (m : List (String × α))
    (h : alookup k m = some v) : (k, v) ∈ m := by
  induction m with
  | nil => simp [alookup] at h
  | cons e t ih =>
      obtain ⟨k₀, v₀⟩ := e
      by_cases hk : k₀ = k
      · subst hk
        rw [show alookup k₀ ((k₀, v₀) :: t) = some v₀ from by simp [alookup]] at h
        obtain rfl : v₀ = v := by injection h
        exact List.mem_cons_self _ _
      · simp only [alookup, if_neg hk] at h
        exact List.mem_cons_of_mem _ (ih h)

lemma alookup_eq_some_of_mem (k : String) (v : α) (m : List (String × α))
    (hnd : (m.map Prod.fst).Nodup) (h : (k, v) ∈ m) : alookup k m = some v := by
  induction m with
  | nil => simp at h
  | cons e t ih =>
      obtain ⟨k₀, v₀⟩ := e
      simp only [List.map_cons, List.nodup_cons] at hnd
      rcases List.mem_cons.1 h with h1 | h1
      · cases h1
        simp [alookup]
      · have hkne : k₀ ≠ k := by
          intro hEq
          subst hEq
          exact hnd.1 (List.mem_map.2 ⟨(k₀, v), h1, rfl⟩)
        simp [alookup, hkne, ih hnd.2 h1]

lemma keys_aset_subset (k : String) (v : α) (m : List (String × α)) :
    ∀ x, x ∈ (aset k v m).map Prod.fst → x ∈ m.map Prod.fst ∨ x = k := by
  induction m with
  | nil => simp [aset]
  | cons e t ih =>
      obtain ⟨k₀, v₀⟩ := e
      intro x hx
      by_cases hk : k₀ = k
      · simp only [aset, if_pos hk, List.map_cons] at hx
        rcases List.mem_cons.1 hx with hx | hx
        · right
          exact hx
        · left
          simp [hx]
      · simp only [aset, if_neg hk, List.map_cons] at hx
        rcases List.mem_cons.1 hx with hx | hx
        · left
          simp [hx]
        · rcases ih x hx with h1 | h1
          · left
            simp [h1]
          · right
            exact h1

lemma mem_keys_aset_of_mem (k : String) (v : α) (m : List (String × α)) :
    ∀ x, x ∈ m.map Prod.fst → x ∈ (aset k v m).map Prod.fst := by
  induction m with
  | nil => simp
  | cons e t ih =>
      obtain ⟨k₀, v₀⟩ := e
      intro x hx
      rw [List.map_cons] at hx
      by_cases hk : k₀ = k
      · rw [show aset k v ((k₀, v₀) :: t) = (k, v) :: t from by simp [aset, hk],
          List.map_cons]
        rcases List.mem_cons.1 hx with hx1 | hx1
        · exact List.mem_cons.2 (Or.inl (hx1.trans hk))
        · exact List.mem_cons.2 (Or.inr hx1)
      · rw [show aset k v ((k₀, v₀) :: t) = (k₀, v₀) :: aset k v t from by simp [aset, hk],
          List.map_cons]
        rcases List.mem_cons.1 hx with hx1 | hx1
        · exact List.mem_cons.2 (Or.inl hx1)
        · exact List.mem_cons.2 (Or.inr (ih x hx1))

lemma mem_keys_aset_self (k : String) (v : α) (m : List (String × α)) :
    k ∈ (aset k v m).map Prod.fst := by
  have h1 := alookup_aset_self k v m
  have h2 := (alookup_isSome_iff_mem k (aset k v m)).1
  rw [h1] at h2
  exact h2 rfl

lemma nodup_keys_aset (k : String) (v : α) (m : List (String × α))
    (hnd : (m.map Prod.fst).Nodup) : ((aset k v m).map Prod.fst).Nodup := by
  induction m with
  | nil => simp [aset]
  | cons e t ih =>
      obtain ⟨k₀, v₀⟩ := e
      simp only [List.map_cons, List.nodup_cons] at hnd
      by_cases hk : k₀ = k
      · simp only [aset, if_pos hk, List.map_cons, List.nodup_cons]
        exact ⟨hk ▸ hnd.1, hnd.2⟩
      · simp only [aset, if_neg hk, List.map_cons, List.nodup_cons]
        refine ⟨fun hc => ?_, ih hnd.2⟩
        rcases keys_aset_subset k v t k₀ hc with h1 | h1
        · exact hnd.1 h1
        · exact hk h1

lemma mem_of_mem_aset (k : String) (v : α) (m : List (String × α)) :
    ∀ e, e ∈ aset k v m → e ∈ m ∨ e = (k, v) := by
  induction m with
  | nil => simp [aset]
  | cons e0 t ih =>
      obtain ⟨k₀, v₀⟩ := e0
      intro e he
      by_cases hk : k₀ = k
      · simp only [aset, if_pos hk] at he
        rcases List.mem_cons.1 he with he | he
        · right
          exact he
        · left
          simp [he]
      · simp only [aset, if_neg hk] at he
        rcases List.mem_cons.1 he with he | he
        · left
          simp [he]
        · rcases ih e he with h1 | h1
          · left
            simp [h1]
          · right
            exact h1

lemma aset_ne_nil (k : String) (v : α) (m : List (String × α)) : aset k v m ≠ [] := by
  induction m with
  | nil => simp [aset]
  | cons e t ih =>
      obtain ⟨k₀, v₀⟩ := e
      by_cases hk : k₀ = k <;> simp [aset, hk]

end AListLemmas

/-- The in-order fold of `gameMap[game.id] = game` resolves a lookup to the
last game in the list carrying that id. -/
lemma alookup_foldl_aset_id (games : List Game) (m : List (String × Game)) (gid : String) :
    alookup gid (games.foldl (fun m g => aset g.id g m) m) =
      ((games.reverse.find? (fun g => g.id == gid)).or (alookup gid m)) := by
  induction games generalizing m with
  | nil => simp
  | cons g gs ih =>
      rw [List.foldl_cons, ih, List.reverse_cons, List.find?_append, Option.or_assoc]
      congr 1
      by_cases hid : g.id = gid
      · have h1 : alookup gid (aset g.id g m) = some g := by
          rw [hid]
          exact alookup_aset_self gid g m
        have hb : (g.id == gid) = true := by simp [hid]
        have h2 : List.find? (fun g2 => g2.id == gid) [g] = some g := by
          simp [List.find?, hb]
        rw [h1, h2]
        simp
      · have h1 : alookup gid (aset g.id g m) = alookup gid m :=
          alookup_aset_ne gid g.id g m hid
        have hb : (g.id == gid) = false := by simp [hid]
        have h2 : List.find? (fun g2 => g2.id == gid) [g] = none := by
          simp [List.find?, hb]
        rw [h1, h2]
        simp

lemma alookup_buildGameMap (games : List Game) (gid : String) :
    alookup gid (buildGameMap games) = games.reverse.find? (fun g => g.id == gid) := by
  rw [buildGameMap, alookup_foldl_aset_id]
  simp [alookup]

lemma mem_of_buildGameMap_eq_some (games : List Game) (gid : String) (g : Game)
    (h : alookup gid (buildGameMap games) = some g) : g ∈ games ∧ g.id = gid := by
  rw [alookup_buildGameMap] at h
  refine ⟨List.mem_reverse.1 (List.mem_of_find?_eq_some h), ?_⟩
  have := List.find?_some h
  simpa using this

lemma buildGameMap_isSome_iff (games : List Game) (gid : String) :
    (alookup gid (buildGameMap games)).isSome ↔ ∃ g ∈ games, g.id = gid := by
  rw [alookup_buildGameMap, List.find?_isSome]
  constructor
  · rintro ⟨g, hg, hid⟩
    exact ⟨g, List.mem_reverse.1 hg, by simpa using hid⟩
  · rintro ⟨g, hg, hid⟩
    exact ⟨g, List.mem_reverse.2 hg, by simpa using hid⟩

lemma buildGameMap_eq_some_iff (games : List Game) (gid : String) (g : Game)
    (hnd : (games.map Game.id).Nodup) :
    alookup gid (buildGameMap games) = some g ↔ (g ∈ games ∧ g.id = gid) := by
  constructor
  · exact mem_of_buildGameMap_eq_some games gid g
  · rintro ⟨hmem, hid⟩
    have hs : (alookup gid (buildGameMap games)).isSome :=
      (buildGameMap_isSome_iff games gid).2 ⟨g, hmem, hid⟩
    obtain ⟨g₂, hg₂⟩ := Option.isSome_iff_exists.1 hs
    obtain ⟨hmem₂, hid₂⟩ := mem_of_buildGameMap_eq_some games gid g₂ hg₂
    have hgg : g₂ = g := List.inj_on_of_nodup_map hnd hmem₂ hmem (by rw [hid, hid₂])
    rw [hg₂, hgg]

/-- Points a prediction earns through a given game map: `none` when the
`gameId` is dangling or the game is not yet scoreable. -/
def predPointsM (gameMap : List (String × Game)) (p : Prediction) : Option Nat :=
  match alookup p.gameId gameMap with
  | none => none
  | some game => calculatePoints p (normalizedGame game)

/-- Points a prediction earns inside `calculatePlayerStats`. -/
def predPoints (games : List Game) (p : Prediction) : Option Nat :=
  predPointsM (buildGameMap games) p

/-- The fecha label and points a prediction contributes to the per-fecha
table: `none` when the prediction is not scored or its game has no fecha. -/
def predFechaM (gameMap : List (String × Game)) (p : Prediction) : Option (String × Nat) :=
  match alookup p.gameId gameMap with
  | none => none
  | some game =>
      match calculatePoints p (normalizedGame game) with
      | none => none
      | some points =>
          match fechaOf game with
          | none => none
          | some fecha => some (fecha, points)

/-- The list of scores a user's scored predictions earn, in prediction order. -/
def userScoresM (gameMap : List (String × Game)) (preds : List Prediction) (u : String) :
    List Nat :=
  (preds.filter (fun p => uidOf p == u)).filterMap (predPointsM gameMap)

/-- The list of scores a user's scored predictions contribute to one fecha. -/
def userFechaM (gameMap : List (String × Game)) (preds : List Prediction) (u f : String) :
    List Nat :=
  (preds.filter (fun p => uidOf p == u)).filterMap (fun p =>
    match predFechaM gameMap p with
    | none => none
    | some fp => if fp.1 = f then some fp.2 else none)

/-- Whether user `u` holds the maximum accumulated score of a fecha table. -/
def atMax (u : String) (us : List (String × Nat)) : Bool :=
  match alookup u us with
  | none => false
  | some t => t == maxValues us

/-- Two-level lookup into the fecha-score table. -/
def lookup2 (f u : String) (fs : List (String × List (String × Nat))) : Option Nat :=
  (alookup f fs).bind (fun us => alookup u us)

lemma scoreOnly_eq (gm : List (String × Game)) (ps : List (String × PlayerStats))
    (p : Prediction) :
    scoreOnly gm ps p =
      match predPointsM gm p with
      | none => ps
      | some points =>
          aset (uidOf p) (addPoints ((alookup (uidOf p) ps).getD PlayerStats.zero) points) ps := by
  unfold scoreOnly predPointsM
  cases alookup p.gameId gm with
  | none => rfl
  | some game => cases calculatePoints p (normalizedGame game) <;> rfl

lemma fechaOnly_eq (gm : List (String × Game)) (fs : List (String × List (String × Nat)))
    (p : Prediction) :
    fechaOnly gm fs p =
      match predFechaM gm p with
      | none => fs
      | some fp =>
          aset fp.1
            (aset (uidOf p) ((alookup (uidOf p) ((alookup fp.1 fs).getD [])).getD 0 + fp.2)
              ((alookup fp.1 fs).getD []))
            fs := by
  unfold fechaOnly predFechaM
  cases hg : alookup p.gameId gm with
  | none => rfl
  | some game =>
      cases hc : calculatePoints p (normalizedGame game) with
      | none => simp [hc]
      | some points =>
          cases hf : fechaOf game with
          | none => simp [hc, hf]
          | some fecha => simp [hc, hf]

lemma foldl_scoreStep_eq (gm : List (String × Game)) (preds : List Prediction)
    (ps : List (String × PlayerStats)) (fs : List (String × List (String × Nat))) :
    preds.foldl (scoreStep gm) (ps, fs) =
      (preds.foldl (scoreOnly gm) ps, preds.foldl (fechaOnly gm) fs) := by
  induction preds generalizing ps fs with
  | nil => rfl
  | cons p t ih => simp [List.foldl_cons, scoreStep, ih]

lemma foldl_addPoints_eq (L : List Nat) (s : PlayerStats) :
    L.foldl addPoints s =
      { totalPoints := s.totalPoints + L.sum
        fechasWonCount := s.fechasWonCount
        perfectScoresCount := s.perfectScoresCount + L.count 10
        gamesParticipated := s.gamesParticipated + L.length } := by
  induction L generalizing s with
  | nil => simp
  | cons x t ih =>
      rw [List.foldl_cons, ih]
      unfold addPoints
      by_cases hx : x = 10
      · simp only [if_pos hx, hx]
        congr 1 <;> simp [List.count_cons, add_comm, add_assoc, add_left_comm]
      · have : (x == 10) = false := by simp [hx]
        simp only [if_neg hx]
        congr 1 <;> simp [List.count_cons, this, add_comm, add_assoc, add_left_comm]

lemma userScoresM_cons (gm : List (String × Game)) (p : Prediction) (t : List Prediction)
    (u : String) :
    userScoresM gm (p :: t) u =
      if uidOf p = u then
        match predPointsM gm p with
        | none => userScoresM gm t u
        | some pts => pts :: userScoresM gm t u
      else userScoresM gm t u := by
  unfold userScoresM
  by_cases hu : uidOf p = u
  · have hb : (uidOf p == u) = true := by simp [hu]
    rw [if_pos hu]
    simp only [List.filter_cons, hb, if_true, List.filterMap_cons]
    cases predPointsM gm p <;> simp
  · have hb : (uidOf p == u) = false := by simp [hu]
    rw [if_neg hu]
    simp only [List.filter_cons, hb, Bool.false_eq_true, if_false]

lemma alookup_scoreFold (gm : List (String × Game)) (preds : List Prediction)
    (u : String) (ps : List (String × PlayerStats)) :
    alookup u (preds.foldl (scoreOnly gm) ps) =
      match alookup u ps with
      | some s => some ((userScoresM gm preds u).foldl addPoints s)
      | none =>
          match userScoresM gm preds u with
          | [] => none
          | L => some (L.foldl addPoints PlayerStats.zero) := by
  induction preds generalizing ps with
  | nil =>
      cases h : alookup u ps <;> simp [userScoresM, h]
  | cons p t ih =>
      rw [List.foldl_cons, ih, scoreOnly_eq, userScoresM_cons]
      by_cases hu : uidOf p = u
      · rw [if_pos hu]
        cases hpts : predPointsM gm p with
        | none => rfl
        | some pts =>
            rw [hu]
            cases hps : alookup u ps with
            | some s =>
                rw [alookup_aset_self]
                simp [hps]
            | none =>
                rw [alookup_aset_self]
                simp [hps]
      · rw [if_neg hu]
        cases hpts : predPointsM gm p with
        | none => rfl
        | some pts => rw [alookup_aset_ne u (uidOf p) _ ps hu]

lemma alookup_initFold (preds : List Prediction) (u : String)
    (ps : List (String × PlayerStats)) :
    alookup u (preds.foldl
        (fun ps p =>
          if (alookup (uidOf p) ps).isSome then ps else aset (uidOf p) PlayerStats.zero ps)
        ps) =
      match alookup u ps with
      | some v => some v
      | none => if u ∈ preds.map uidOf then some PlayerStats.zero else none := by
  induction preds generalizing ps with
  | nil => cases h : alookup u ps <;> simp [h]
  | cons p t ih =>
      rw [List.foldl_cons, ih]
      by_cases hs : (alookup (uidOf p) ps).isSome
      · rw [if_pos hs]
        cases hv : alookup u ps with
        | some v => simp [hv]
        | none =>
            have hne : uidOf p ≠ u := by
              intro hc
              rw [hc, hv] at hs
              simp at hs
            simp [hv, List.mem_cons, Ne.symm hne]
      · rw [if_neg hs]
        by_cases hu : uidOf p = u
        · subst hu
          rw [alookup_aset_self]
          have hv : alookup (uidOf p) ps = none := by
            cases hv2 : alookup (uidOf p) ps
            · rfl
            · rw [hv2] at hs
              simp at hs
          simp [hv]
        · rw [alookup_aset_ne u (uidOf p) _ ps hu]
          cases hv : alookup u ps with
          | some v => simp [hv]
          | none => simp [hv, List.mem_cons, Ne.symm hu]

lemma alookup_initPlayerStats (preds : List Prediction) (u : String) :
    alookup u (initPlayerStats preds) =
      if u ∈ preds.map uidOf then some PlayerStats.zero else none := by
  rw [initPlayerStats, alookup_initFold]
  simp [alookup]

/-- Lookup characterisation of the stats produced by the scoring passes,
before fecha wins are credited. -/
lemma alookup_statsPhase (games : List Game) (preds : List Prediction) (u : String) :
    alookup u (preds.foldl (scoreOnly (buildGameMap games)) (initPlayerStats preds)) =
      if u ∈ preds.map uidOf then
        some ((userScoresM (buildGameMap games) preds u).foldl addPoints PlayerStats.zero)
      else none := by
  rw [alookup_scoreFold, alookup_initPlayerStats]
  by_cases hm : u ∈ preds.map uidOf
  · simp only [if_pos hm]
  · simp only [if_neg hm]
    have : userScoresM (buildGameMap games) preds u = [] := by
      unfold userScoresM
      rw [List.filter_eq_nil_iff.2]
      · rfl
      · intro p hp
        simp only [beq_iff_eq]
        intro hc
        exact hm (List.mem_map.2 ⟨p, hp, hc⟩)
    rw [this]

lemma userFechaM_cons (gm : List (String × Game)) (p : Prediction) (t : List Prediction)
    (u f : String) :
    userFechaM gm (p :: t) u f =
      if uidOf p = u then
        match predFechaM gm p with
        | none => userFechaM gm t u f
        | some fp => if fp.1 = f then fp.2 :: userFechaM gm t u f else userFechaM gm t u f
      else userFechaM gm t u f := by
  unfold userFechaM
  by_cases hu : uidOf p = u
  · have hb : (uidOf p == u) = true := by simp [hu]
    rw [if_pos hu]
    simp only [List.filter_cons, hb, if_true, List.filterMap_cons]
    cases hfp : predFechaM gm p with
    | none => simp
    | some fp =>
        by_cases hf : fp.1 = f
        · simp [hf]
        · simp [hf]
  · have hb : (uidOf p == u) = false := by simp [hu]
    rw [if_neg hu]
    simp only [List.filter_cons, hb, Bool.false_eq_true, if_false]

lemma lookup2_fechaFold (gm : List (String × Game)) (preds : List Prediction)
    (f u : String) (fs : List (String × List (String × Nat))) :
    lookup2 f u (preds.foldl (fechaOnly gm) fs) =
      match lookup2 f u fs with
      | some t0 => some (t0 + (userFechaM gm preds u f).sum)
      | none =>
          match userFechaM gm preds u f with
          | [] => none
          | L => some (L.sum) := by
  induction preds generalizing fs with
  | nil =>
      cases h : lookup2 f u fs <;> simp [userFechaM, h]
  | cons p t ih =>
      rw [List.foldl_cons, ih, fechaOnly_eq, userFechaM_cons]
      by_cases hu : uidOf p = u
      · rw [if_pos hu]
        cases hfp : predFechaM gm p with
        | none => rfl
        | some fp =>
            try dsimp only
            by_cases hf : fp.1 = f
            · rw [if_pos hf]
              have hl2 : lookup2 f u
                  (aset fp.1
                    (aset (uidOf p) ((alookup (uidOf p) ((alookup fp.1 fs).getD [])).getD 0 + fp.2)
                      ((alookup fp.1 fs).getD []))
                    fs) =
                  some ((alookup u ((alookup f fs).getD [])).getD 0 + fp.2) := by
                unfold lookup2
                rw [hf, hu]
                rw [alookup_aset_self]
                simp only [Option.some_bind]
                rw [alookup_aset_self]
              rw [hl2]
              unfold lookup2
              cases hfs : alookup f fs with
              | none =>
                  try dsimp only
                  simp [alookup, List.sum_cons]
              | some us =>
                  try dsimp only
                  cases hus : alookup u us with
                  | none =>
                      simp only [Option.getD_some, Option.some_bind]
                      rw [hus]
                      try dsimp only
                      simp only [Option.getD_none, Option.some.injEq, List.sum_cons]
                      omega
                  | some t0 =>
                      simp only [Option.getD_some, Option.some_bind]
                      rw [hus]
                      try dsimp only
                      simp only [Option.getD_some, Option.some.injEq, List.sum_cons]
                      omega
            · rw [if_neg hf]
              have hl2 : lookup2 f u
                  (aset fp.1
                    (aset (uidOf p) ((alookup (uidOf p) ((alookup fp.1 fs).getD [])).getD 0 + fp.2)
                      ((alookup fp.1 fs).getD []))
                    fs) = lookup2 f u fs := by
                unfold lookup2
                rw [alookup_aset_ne f fp.1 _ fs hf]
              rw [hl2]
      · rw [if_neg hu]
        cases hfp : predFechaM gm p with
        | none => rfl
        | some fp =>
            try dsimp only
            have hl2 : lookup2 f u
                (aset fp.1
                  (aset (uidOf p) ((alookup (uidOf p) ((alookup fp.1 fs).getD [])).getD 0 + fp.2)
                    ((alookup fp.1 fs).getD []))
                  fs) = lookup2 f u fs := by
              unfold lookup2
              by_cases hf : fp.1 = f
              · rw [hf, alookup_aset_self]
                simp only [Option.some_bind]
                rw [alookup_aset_ne u (uidOf p) _ _ hu]
                rw [← hf]
                cases hfs : alookup fp.1 fs with
                | none =>
                    try dsimp only
                    simp [alookup]
                | some us =>
                    try dsimp only
                    simp
              · rw [alookup_aset_ne f fp.1 _ fs hf]
            rw [hl2]

lemma atMax_true_iff (u : String) (us : List (String × Nat)) :
    atMax u us = true ↔ alookup u us = some (maxValues us) := by
  unfold atMax
  cases h : alookup u us with
  | none => simp
  | some t => simp

lemma alookup_creditStep_ne (m : Nat) (ps : List (String × PlayerStats)) (e : String × Nat)
    (u : String) (h : e.1 ≠ u) : alookup u (creditStep m ps e) = alookup u ps := by
  unfold creditStep
  by_cases hm : e.2 = m
  · rw [if_pos hm]
    cases he : alookup e.1 ps with
    | none => rfl
    | some s => exact alookup_aset_ne u e.1 _ ps h
  · rw [if_neg hm]

lemma alookup_creditFold_not_mem (us : List (String × Nat))
    (ps : List (String × PlayerStats)) (u : String) (m : Nat)
    (h : u ∉ us.map Prod.fst) :
    alookup u (us.foldl (creditStep m) ps) = alookup u ps := by
  induction us generalizing ps with
  | nil => rfl
  | cons e t ih =>
      rw [List.map_cons] at h
      rw [List.foldl_cons, ih _ (fun hc => h (List.mem_cons_of_mem _ hc)),
        alookup_creditStep_ne m ps e u (fun hc => h (List.mem_cons.2 (Or.inl hc.symm)))]

lemma alookup_creditFold (us : List (String × Nat)) (ps : List (String × PlayerStats))
    (u : String) (m : Nat) (hnd : (us.map Prod.fst).Nodup) :
    alookup u (us.foldl (creditStep m) ps) =
      (alookup u ps).map (fun s =>
        if alookup u us = some m then { s with fechasWonCount := s.fechasWonCount + 1 }
        else s) := by
  induction us generalizing ps with
  | nil =>
      cases h : alookup u ps <;> simp [alookup, h]
  | cons e t ih =>
      obtain ⟨k, t0⟩ := e
      rw [List.map_cons, List.nodup_cons] at hnd
      rw [List.foldl_cons]
      by_cases hk : k = u
      · subst hk
        rw [alookup_creditFold_not_mem t _ k m hnd.1]
        have hl : alookup k ((k, t0) :: t) = some t0 := by simp [alookup]
        rw [hl]
        unfold creditStep
        by_cases hm : t0 = m
        · rw [if_pos hm]
          cases hv : alookup k ps with
          | none => simp [hv, hm]
          | some s =>
              rw [alookup_aset_self]
              simp [hv, hm]
        · rw [if_neg hm]
          have : ¬(some t0 = some m) := by simp [hm]
          cases hv : alookup k ps <;> simp [hv, this]
      · have hl : alookup u ((k, t0) :: t) = alookup u t := by simp [alookup, hk]
        rw [hl, ih _ hnd.2, alookup_creditStep_ne m ps (k, t0) u hk]

lemma alookup_winFold (fs : List (String × List (String × Nat)))
    (ps : List (String × PlayerStats)) (u : String)
    (hinner : ∀ e ∈ fs, (e.2.map Prod.fst).Nodup) :
    alookup u (fs.foldl fechaWinStep ps) =
      (alookup u ps).map (fun s =>
        { s with fechasWonCount :=
            s.fechasWonCount + fs.countP (fun e => decide (0 < e.2.length) && atMax u e.2) }) := by
  induction fs generalizing ps with
  | nil =>
      cases h : alookup u ps with
      | none => simp [h]
      | some s =>
          simp [h, List.countP_nil]
  | cons e t ih =>
      rw [List.foldl_cons, ih _ (fun x hx => hinner x (List.mem_cons_of_mem _ hx))]
      have hstep : alookup u (fechaWinStep ps e) =
          (alookup u ps).map (fun s =>
            if decide (0 < e.2.length) && atMax u e.2 then
              { s with fechasWonCount := s.fechasWonCount + 1 }
            else s) := by
        unfold fechaWinStep
        by_cases hlen : 0 < e.2.length
        · rw [if_pos hlen, alookup_creditFold e.2 ps u (maxValues e.2)
            (hinner e (List.mem_cons_self e t))]
          have hd : decide (0 < e.2.length) = true := by simp [hlen]
          by_cases hmax : alookup u e.2 = some (maxValues e.2)
          · have ha : atMax u e.2 = true := (atMax_true_iff u e.2).2 hmax
            simp [hmax, ha, hd]
          · have ha : atMax u e.2 = false := by
              cases hq : atMax u e.2
              · rfl
              · exact absurd ((atMax_true_iff u e.2).1 hq) hmax
            simp [hmax, ha, hd]
        · rw [if_neg hlen]
          have hd : decide (0 < e.2.length) = false := by simp [hlen]
          cases hv : alookup u ps with
          | none => simp [hv]
          | some s => simp [hv, hd]
      rw [hstep]
      cases hv : alookup u ps with
      | none => simp
      | some s =>
          simp only [Option.map_some', List.countP_cons]
          by_cases hb : (decide (0 < e.2.length) && atMax u e.2) = true
          · simp only [hb, if_true, Option.some.injEq, PlayerStats.mk.injEq]
            simp only [PlayerStats.mk.injEq] at *
            refine ⟨trivial, ?_, trivial, trivial⟩
            omega
          · have hb2 : (decide (0 < e.2.length) && atMax u e.2) = false := by
              cases hq : (decide (0 < e.2.length) && atMax u e.2)
              · rfl
              · exact absurd hq hb
            simp only [hb2, Bool.false_eq_true, if_false, Option.some.injEq,
              PlayerStats.mk.injEq]
            refine ⟨trivial, ?_, trivial, trivial⟩
            omega

lemma nodup_keys_initFold (preds : List Prediction) (ps : List (String × PlayerStats))
    (h : (ps.map Prod.fst).Nodup) :
    ((preds.foldl
        (fun ps p =>
          if (alookup (uidOf p) ps).isSome then ps else aset (uidOf p) PlayerStats.zero ps)
        ps).map Prod.fst).Nodup := by
  induction preds generalizing ps with
  | nil => exact h
  | cons p t ih =>
      rw [List.foldl_cons]
      apply ih
      by_cases hs : (alookup (uidOf p) ps).isSome
      · rw [if_pos hs]
        exact h
      · rw [if_neg hs]
        exact nodup_keys_aset _ _ _ h

lemma nodup_keys_scoreFold (gm : List (String × Game)) (preds : List Prediction)
    (ps : List (String × PlayerStats)) (h : (ps.map Prod.fst).Nodup) :
    ((preds.foldl (scoreOnly gm) ps).map Prod.fst).Nodup := by
  induction preds generalizing ps with
  | nil => exact h
  | cons p t ih =>
      rw [List.foldl_cons]
      apply ih
      rw [scoreOnly_eq]
      cases predPointsM gm p with
      | none => exact h
      | some pts => exact nodup_keys_aset _ _ _ h

lemma nodup_keys_creditFold (us : List (String × Nat)) (ps : List (String × PlayerStats))
    (m : Nat) (h : (ps.map Prod.fst).Nodup) :
    ((us.foldl (creditStep m) ps).map Prod.fst).Nodup := by
  induction us generalizing ps with
  | nil => exact h
  | cons e t ih =>
      rw [List.foldl_cons]
      apply ih
      unfold creditStep
      by_cases hm : e.2 = m
      · rw [if_pos hm]
        cases alookup e.1 ps with
        | none => exact h
        | some s => exact nodup_keys_aset _ _ _ h
      · rw [if_neg hm]
        exact h

lemma nodup_keys_winFold (fs : List (String × List (String × Nat)))
    (ps : List (String × PlayerStats)) (h : (ps.map Prod.fst).Nodup) :
    ((fs.foldl fechaWinStep ps).map Prod.fst).Nodup := by
  induction fs generalizing ps with
  | nil => exact h
  | cons e t ih =>
      rw [List.foldl_cons]
      apply ih
      unfold fechaWinStep
      by_cases hl : 0 < e.2.length
      · rw [if_pos hl]
        exact nodup_keys_creditFold _ _ _ h
      · rw [if_neg hl]
        exact h

lemma nodup_keys_fechaFold (gm : List (String × Game)) (preds : List Prediction)
    (fs : List (String × List (String × Nat))) (h : (fs.map Prod.fst).Nodup) :
    ((preds.foldl (fechaOnly gm) fs).map Prod.fst).Nodup := by
  induction preds generalizing fs with
  | nil => exact h
  | cons p t ih =>
      rw [List.foldl_cons]
      apply ih
      rw [fechaOnly_eq]
      cases predFechaM gm p with
      | none => exact h
      | some fp => exact nodup_keys_aset _ _ _ h

lemma inner_nodup_fechaFold (gm : List (String × Game)) (preds : List Prediction)
    (fs : List (String × List (String × Nat)))
    (h : ∀ e ∈ fs, (e.2.map Prod.fst).Nodup) :
    ∀ e ∈ preds.foldl (fechaOnly gm) fs, (e.2.map Prod.fst).Nodup := by
  induction preds generalizing fs with
  | nil => exact h
  | cons p t ih =>
      rw [List.foldl_cons]
      apply ih
      rw [fechaOnly_eq]
      cases hfp : predFechaM gm p with
      | none => exact h
      | some fp =>
          try dsimp only
          intro e he
          rcases mem_of_mem_aset _ _ _ e he with h1 | h1
          · exact h e h1
          · subst h1
            apply nodup_keys_aset
            cases hl : alookup fp.1 fs with
            | none => simp
            | some us =>
                have := h (fp.1, us) (mem_of_alookup_eq_some _ _ _ hl)
                simpa using this

lemma inner_ne_nil_fechaFold (gm : List (String × Game)) (preds : List Prediction)
    (fs : List (String × List (String × Nat)))
    (h : ∀ e ∈ fs, e.2 ≠ []) :
    ∀ e ∈ preds.foldl (fechaOnly gm) fs, e.2 ≠ [] := by
  induction preds generalizing fs with
  | nil => exact h
  | cons p t ih =>
      rw [List.foldl_cons]
      apply ih
      rw [fechaOnly_eq]
      cases hfp : predFechaM gm p with
      | none => exact h
      | some fp =>
          try dsimp only
          intro e he
          rcases mem_of_mem_aset _ _ _ e he with h1 | h1
          · exact h e h1
          · subst h1
            exact aset_ne_nil _ _ _

lemma isSome_aset {α : Type} (k k₁ : String) (v : α) (m : List (String × α)) :
    (alookup k (aset k₁ v m)).isSome ↔ k = k₁ ∨ (alookup k m).isSome := by
  by_cases hk : k₁ = k
  · subst hk
    rw [alookup_aset_self]
    simp
  · rw [alookup_aset_ne k k₁ v m hk]
    simp [Ne.symm hk]

lemma isSome_fechaFold (gm : List (String × Game)) (preds : List Prediction)
    (fs : List (String × List (String × Nat))) (f : String) :
    (alookup f (preds.foldl (fechaOnly gm) fs)).isSome ↔
      ((alookup f fs).isSome ∨
        ∃ p ∈ preds, ∃ fp, predFechaM gm p = some fp ∧ fp.1 = f) := by
  induction preds generalizing fs with
  | nil => simp
  | cons p t ih =>
      rw [List.foldl_cons, ih, fechaOnly_eq]
      cases hfp : predFechaM gm p with
      | none =>
          constructor
          · rintro (h1 | h1)
            · exact Or.inl h1
            · right
              obtain ⟨q, hq, fp, hfp2, hf⟩ := h1
              exact ⟨q, List.mem_cons_of_mem _ hq, fp, hfp2, hf⟩
          · rintro (h1 | h1)
            · exact Or.inl h1
            · obtain ⟨q, hq, fp, hfp2, hf⟩ := h1
              rcases List.mem_cons.1 hq with rfl | hq2
              · rw [hfp] at hfp2
                cases hfp2
              · exact Or.inr ⟨q, hq2, fp, hfp2, hf⟩
      | some fp =>
          try dsimp only
          rw [isSome_aset]
          constructor
          · rintro ((h1 | h1) | h1)
            · right
              exact ⟨p, List.mem_cons_self p t, fp, hfp, h1.symm⟩
            · exact Or.inl h1
            · right
              obtain ⟨q, hq, fp2, hfp2, hf⟩ := h1
              exact ⟨q, List.mem_cons_of_mem _ hq, fp2, hfp2, hf⟩
          · rintro (h1 | h1)
            · exact Or.inl (Or.inr h1)
            · obtain ⟨q, hq, fp2, hfp2, hf⟩ := h1
              rcases List.mem_cons.1 hq with rfl | hq2
              · rw [hfp] at hfp2
                obtain rfl : fp = fp2 := by injection hfp2
                exact Or.inl (Or.inl hf.symm)
              · exact Or.inr ⟨q, hq2, fp2, hfp2, hf⟩

/-- The fecha-wins count a user ends with. -/
def fechaWins (games : List Game) (preds : List Prediction) (u : String) : Nat :=
  (fechaScoresOf games preds).countP (fun e => decide (0 < e.2.length) && atMax u e.2)

/-- Master characterisation of `calculatePlayerStats`: the stats object maps
exactly the userIds of the predictions, each to the sums and counts of that
user's scored predictions plus the fecha-wins count. -/
lemma alookup_calculatePlayerStats (games : List Game) (preds : List Prediction) (u : String) :
    alookup u (calculatePlayerStats games preds) =
      if u ∈ preds.map uidOf then
        some { totalPoints := (userScoresM (buildGameMap games) preds u).sum
               fechasWonCount := fechaWins games preds u
               perfectScoresCount := (userScoresM (buildGameMap games) preds u).count 10
               gamesParticipated := (userScoresM (buildGameMap games) preds u).length }
      else none := by
  unfold calculatePlayerStats
  dsimp only
  rw [foldl_scoreStep_eq]
  rw [alookup_winFold _ _ _ (inner_nodup_fechaFold (buildGameMap games) preds [] (by simp))]
  rw [alookup_statsPhase]
  by_cases hm : u ∈ preds.map uidOf
  · rw [if_pos hm, if_pos hm]
    rw [foldl_addPoints_eq]
    simp only [Option.map_some', PlayerStats.zero, Option.some.injEq]
    simp only [Nat.zero_add, fechaWins, fechaScoresOf]
  · rw [if_neg hm, if_neg hm]
    rfl

lemma calculatePoints_le_ten (p : Prediction) (g : Game) (pts : Nat)
    (h : calculatePoints p g = some pts) : pts ≤ 10 := by
  unfold calculatePoints at h
  by_cases h1 : gameStatusOf g ≠ "finished" ∨ effHomeScore g = JsVal.null ∨
      effAwayScore g = JsVal.null
  · rw [if_pos h1] at h
    cases h
  · rw [if_neg h1] at h
    by_cases h2 : p.predictedHomeScore = JsVal.null ∨ p.predictedAwayScore = JsVal.null
    · rw [if_pos h2] at h
      obtain rfl : (0 : Nat) = pts := by injection h
      omega
    · rw [if_neg h2] at h
      have := h.symm
      injection this with hv
      subst hv
      split_ifs <;> omega

lemma predPointsM_le_ten (gm : List (String × Game)) (p : Prediction) (pts : Nat)
    (h : predPointsM gm p = some pts) : pts ≤ 10 := by
  unfold predPointsM at h
  cases hg : alookup p.gameId gm with
  | none => rw [hg] at h; cases h
  | some game =>
      rw [hg] at h
      exact calculatePoints_le_ten p (normalizedGame game) pts h

lemma sum_le_ten_mul_length (L : List Nat) (h : ∀ x ∈ L, x ≤ 10) :
    L.sum ≤ 10 * L.length := by
  induction L with
  | nil => simp
  | cons x t ih =>
      rw [List.sum_cons, List.length_cons]
      have hx := h x (List.mem_cons_self x t)
      have ht := ih (fun y hy => h y (List.mem_cons_of_mem _ hy))
      omega

lemma countP_congr_mem {α : Type} (l : List α) (p q : α → Bool)
    (h : ∀ a ∈ l, p a = q a) : l.countP p = l.countP q := by
  induction l with
  | nil => simp
  | cons x t ih =>
      rw [List.countP_cons, List.countP_cons, h x (List.mem_cons_self x t),
        ih (fun a ha => h a (List.mem_cons_of_mem _ ha))]

lemma mem_userScoresM (gm : List (String × Game)) (preds : List Prediction) (u : String)
    (x : Nat) (hx : x ∈ userScoresM gm preds u) :
    ∃ p ∈ preds, uidOf p = u ∧ predPointsM gm p = some x := by
  unfold userScoresM at hx
  obtain ⟨p, hp, hpx⟩ := List.mem_filterMap.1 hx
  obtain ⟨hpmem, hpu⟩ := List.mem_filter.1 hp
  exact ⟨p, hpmem, by simpa using hpu, hpx⟩

lemma userScoresM_eq_nil_of_not_mem (gm : List (String × Game)) (preds : List Prediction)
    (u : String) (h : u ∉ preds.map uidOf) : userScoresM gm preds u = [] := by
  unfold userScoresM
  rw [List.filter_eq_nil_iff.2, List.filterMap_nil]
  intro p hp
  simp only [beq_iff_eq]
  intro hc
  exact h (List.mem_map.2 ⟨p, hp, hc⟩)

lemma userFechaM_eq_nil_of_not_mem (gm : List (String × Game)) (preds : List Prediction)
    (u f : String) (h : u ∉ preds.map uidOf) : userFechaM gm preds u f = [] := by
  unfold userFechaM
  rw [List.filter_eq_nil_iff.2, List.filterMap_nil]
  intro p hp
  simp only [beq_iff_eq]
  intro hc
  exact h (List.mem_map.2 ⟨p, hp, hc⟩)

lemma predFechaM_eq_none_of_points_none (gm : List (String × Game)) (p : Prediction)
    (h : predPointsM gm p = none) : predFechaM gm p = none := by
  unfold predPointsM at h
  unfold predFechaM
  cases hg : alookup p.gameId gm with
  | none => rfl
  | some game =>
      rw [hg] at h
      dsimp only at h ⊢
      rw [h]

lemma userFechaM_eq_nil_of_points_none (gm : List (String × Game)) (preds : List Prediction)
    (u f : String) (h : ∀ p ∈ preds, uidOf p = u → predPointsM gm p = none) :
    userFechaM gm preds u f = [] := by
  unfold userFechaM
  rw [List.filterMap_eq_nil_iff.2]
  intro p hp
  obtain ⟨hpmem, hpu⟩ := List.mem_filter.1 hp
  rw [predFechaM_eq_none_of_points_none gm p (h p hpmem (by simpa using hpu))]

lemma lookup2_fechaScoresOf (games : List Game) (preds : List Prediction) (f v : String) :
    lookup2 f v (fechaScoresOf games preds) =
      (match userFechaM (buildGameMap games) preds v f with
       | [] => none
       | L => some L.sum) := by
  unfold fechaScoresOf
  rw [lookup2_fechaFold]
  have : lookup2 f v ([] : List (String × List (String × Nat))) = none := rfl
  rw [this]

lemma alookup_inner_fechaScoresOf (games : List Game) (preds : List Prediction)
    (f v : String) (us : List (String × Nat))
    (hf : alookup f (fechaScoresOf games preds) = some us) :
    alookup v us =
      (match userFechaM (buildGameMap games) preds v f with
       | [] => none
       | L => some L.sum) := by
  have h := lookup2_fechaScoresOf games preds f v
  unfold lookup2 at h
  rw [hf] at h
  simpa using h


lemma atMax_false_of_no_scores (games : List Game) (preds : List Prediction) (u : String)
    (h : ∀ f, userFechaM (buildGameMap games) preds u f = []) :
    ∀ e ∈ fechaScoresOf games preds, atMax u e.2 = false := by
  intro e he
  have hnd : ((fechaScoresOf games preds).map Prod.fst).Nodup :=
    nodup_keys_fechaFold (buildGameMap games) preds [] (by simp)
  have hlk : alookup e.1 (fechaScoresOf games preds) = some e.2 := by
    obtain ⟨k, us⟩ := e
    exact alookup_eq_some_of_mem _ _ _ hnd he
  have hv : alookup u e.2 = none := by
    have h2 := alookup_inner_fechaScoresOf games preds e.1 u e.2 hlk
    rw [h e.1] at h2
    exact h2
  unfold atMax
  rw [hv]

lemma fechaWins_eq_zero_of_no_scores (games : List Game) (preds : List Prediction) (u : String)
    (h : ∀ f, userFechaM (buildGameMap games) preds u f = []) :
    fechaWins games preds u = 0 := by
  unfold fechaWins
  rw [List.countP_eq_zero.2]
  intro e he
  rw [atMax_false_of_no_scores games preds u h e he]
  simp

lemma predPointsM_none_of_dangling (gm : List (String × Game)) (p : Prediction)
    (h : alookup p.gameId gm = none) : predPointsM gm p = none := by
  unfold predPointsM
  rw [h]

lemma predFechaM_eq_some_game (gm : List (String × Game)) (p : Prediction) (fp : String × Nat)
    (h : predFechaM gm p = some fp) :
    ∃ g, alookup p.gameId gm = some g ∧ fechaOf g = some fp.1 := by
  unfold predFechaM at h
  cases hg : alookup p.gameId gm with
  | none =>
      rw [hg] at h
      cases h
  | some game =>
      rw [hg] at h
      dsimp only at h
      cases hc : calculatePoints p (normalizedGame game) with
      | none =>
          rw [hc] at h
          cases h
      | some pts =>
          rw [hc] at h
          dsimp only at h
          cases hf : fechaOf game with
          | none =>
              rw [hf] at h
              cases h
          | some fe =>
              rw [hf] at h
              obtain rfl : (fe, pts) = fp := by injection h
              exact ⟨game, rfl, hf⟩

lemma userScoresM_append (gm : List (String × Game)) (l₁ l₂ : List Prediction) (u : String) :
    userScoresM gm (l₁ ++ l₂) u = userScoresM gm l₁ u ++ userScoresM gm l₂ u := by
  unfold userScoresM
  rw [List.filter_append, List.filterMap_append]

lemma userScoresM_singleton (gm : List (String × Game)) (p : Prediction) (u : String) :
    userScoresM gm [p] u =
      if uidOf p = u then
        (match predPointsM gm p with
         | none => []
         | some x => [x])
      else [] := by
  unfold userScoresM
  by_cases hu : uidOf p = u
  · have hb : (uidOf p == u) = true := by simp [hu]
    rw [if_pos hu]
    simp only [List.filter_cons, hb, if_true, List.filter_nil, List.filterMap_cons,
      List.filterMap_nil]
    cases predPointsM gm p <;> rfl
  · have hb : (uidOf p == u) = false := by simp [hu]
    rw [if_neg hu]
    simp [List.filter_cons, hb]

lemma fechaScoresOf_append_none (games : List Game) (preds : List Prediction) (p₀ : Prediction)
    (h : predPointsM (buildGameMap games) p₀ = none) :
    fechaScoresOf games (preds ++ [p₀]) = fechaScoresOf games preds := by
  unfold fechaScoresOf
  rw [List.foldl_append, List.foldl_cons, List.foldl_nil, fechaOnly_eq,
    predFechaM_eq_none_of_points_none _ _ h]

/-- C10: every entry of the stats object satisfies the arithmetic invariants:
total points at most ten per participated game, perfect scores at most the
participation count, and fecha wins at most the number of distinct fecha
labels among the input games. -/
theorem claim10_stats_invariants (games : List Game) (preds : List Prediction)
    (u : String) (s : PlayerStats)
    (h : alookup u (calculatePlayerStats games preds) = some s) :
    s.totalPoints ≤ 10 * s.gamesParticipated ∧
    s.perfectScoresCount ≤ s.gamesParticipated ∧
    s.fechasWonCount ≤ ((games.filterMap fechaOf).dedup).length := by
  rw [alookup_calculatePlayerStats] at h
  by_cases hm : u ∈ preds.map uidOf
  · rw [if_pos hm, Option.some.injEq] at h
    subst h
    dsimp only
    refine ⟨?_, ?_, ?_⟩
    · exact sum_le_ten_mul_length _ (fun x hx => by
        obtain ⟨p, hp, hup, hpt⟩ := mem_userScoresM _ _ _ _ hx
        exact predPointsM_le_ten _ _ _ hpt)
    · exact List.count_le_length 10 (userScoresM (buildGameMap games) preds u)
    · show fechaWins games preds u ≤ ((games.filterMap fechaOf).dedup).length
      have hnd : ((fechaScoresOf games preds).map Prod.fst).Nodup :=
        nodup_keys_fechaFold (buildGameMap games) preds [] (by simp)
      have hsub : ∀ f ∈ (fechaScoresOf games preds).map Prod.fst,
          f ∈ (games.filterMap fechaOf).dedup := by
        intro f hf
        have hs : (alookup f (fechaScoresOf games preds)).isSome :=
          (alookup_isSome_iff_mem f _).2 hf
        rw [fechaScoresOf] at hs
        rcases (isSome_fechaFold (buildGameMap games) preds [] f).1 hs with h1 | h1
        · simp [alookup] at h1
        · obtain ⟨p, hp, fp, hfp, hfe⟩ := h1
          obtain ⟨g, hg, hgf⟩ := predFechaM_eq_some_game _ _ _ hfp
          obtain ⟨hgm, -⟩ := mem_of_buildGameMap_eq_some games p.gameId g hg
          exact List.mem_dedup.2 (List.mem_filterMap.2 ⟨g, hgm, by rw [hgf, hfe]⟩)
      calc fechaWins games preds u
          ≤ (fechaScoresOf games preds).length := List.countP_le_length _
        _ = ((fechaScoresOf games preds).map Prod.fst).length := (List.length_map _ _).symm
        _ = ((fechaScoresOf games preds).map Prod.fst).toFinset.card :=
            (List.toFinset_card_of_nodup hnd).symm
        _ ≤ ((games.filterMap fechaOf).dedup).toFinset.card :=
            Finset.card_le_card (fun x hx =>
              List.mem_toFinset.2 (hsub x (List.mem_toFinset.1 hx)))
        _ = ((games.filterMap fechaOf).dedup).length :=
            List.toFinset_card_of_nodup (List.nodup_dedup _)
  · rw [if_neg hm] at h
    cases h

/-- Witness for C10 at a concrete input. -/
theorem claim10_stats_invariants_witness :
    (⟨10, 1, 1, 1⟩ : PlayerStats).totalPoints ≤ 10 * (⟨10, 1, 1, 1⟩ : PlayerStats).gamesParticipated ∧
    (⟨10, 1, 1, 1⟩ : PlayerStats).perfectScoresCount ≤ (⟨10, 1, 1, 1⟩ : PlayerStats).gamesParticipated ∧
    (⟨10, 1, 1, 1⟩ : PlayerStats).fechasWonCount ≤
      (([mkGame "g1" (some "finished") none (JsVal.num 2) JsVal.undef (JsVal.num 1) JsVal.undef
          (some "W1") none].filterMap fechaOf).dedup).length :=
  claim10_stats_invariants
    [mkGame "g1" (some "finished") none (JsVal.num 2) JsVal.undef (JsVal.num 1) JsVal.undef
      (some "W1") none]
    [mkPred (some "A") "g1" (JsVal.num 2) (JsVal.num 1) (some "Ann") (some 1)]
    "A" ⟨10, 1, 1, 1⟩ (by decide)

/-- C2: the final `fechasWonCount` of every user counts exactly the fecha
entries in which the user's accumulated total equals the fecha maximum (so
all tied users are credited, exactly once per week); moreover the fecha table
has one entry per week label, each non-empty, holding for each scoring user
exactly the sum of that user's scored points in that week. -/
theorem claim2_fecha_wins_ties (games : List Game) (preds : List Prediction)
    (u : String) (s : PlayerStats)
    (h : alookup u (calculatePlayerStats games preds) = some s) :
    s.fechasWonCount = (fechaScoresOf games preds).countP (fun e => atMax u e.2) ∧
    ((fechaScoresOf games preds).map Prod.fst).Nodup ∧
    (∀ f us, alookup f (fechaScoresOf games preds) = some us →
      us ≠ [] ∧
      ∀ v, alookup v us =
        (match userFechaM (buildGameMap games) preds v f with
         | [] => none
         | L => some L.sum)) := by
  have hne : ∀ e ∈ fechaScoresOf games preds, e.2 ≠ [] := by
    intro e he
    exact inner_ne_nil_fechaFold (buildGameMap games) preds [] (by simp) e he
  refine ⟨?_, nodup_keys_fechaFold (buildGameMap games) preds [] (by simp), ?_⟩
  · rw [alookup_calculatePlayerStats] at h
    by_cases hm : u ∈ preds.map uidOf
    · rw [if_pos hm, Option.some.injEq] at h
      subst h
      dsimp only
      unfold fechaWins
      apply countP_congr_mem
      intro e he
      have hlen : 0 < e.2.length := List.length_pos.2 (hne e he)
      simp [hlen]
    · rw [if_neg hm] at h
      cases h
  · intro f us hf
    refine ⟨hne (f, us) (mem_of_alookup_eq_some f us _ hf), ?_⟩
    intro v
    exact alookup_inner_fechaScoresOf games preds f v us hf

/-- Witness for C2 at the spec's scenario: user A and user B both predict the
finished 2-1 game of week W1; A scores 10 (week maximum), B scores 7. -/
theorem claim2_fecha_wins_ties_witness :
    (⟨10, 1, 1, 1⟩ : PlayerStats).fechasWonCount =
      (fechaScoresOf
          [mkGame "g1" (some "finished") none (JsVal.num 2) JsVal.undef (JsVal.num 1) JsVal.undef
            (some "W1") none]
          [mkPred (some "A") "g1" (JsVal.num 2) (JsVal.num 1) (some "Ann") (some 1),
           mkPred (some "B") "g1" (JsVal.num 3) (JsVal.num 1) (some "Bob") (some 2)]).countP
        (fun e => atMax "A" e.2) ∧
    ((fechaScoresOf
        [mkGame "g1" (some "finished") none (JsVal.num 2) JsVal.undef (JsVal.num 1) JsVal.undef
          (some "W1") none]
        [mkPred (some "A") "g1" (JsVal.num 2) (JsVal.num 1) (some "Ann") (some 1),
         mkPred (some "B") "g1" (JsVal.num 3) (JsVal.num 1) (some "Bob") (some 2)]).map
      Prod.fst).Nodup ∧
    (∀ f us, alookup f (fechaScoresOf
          [mkGame "g1" (some "finished") none (JsVal.num 2) JsVal.undef (JsVal.num 1) JsVal.undef
            (some "W1") none]
          [mkPred (some "A") "g1" (JsVal.num 2) (JsVal.num 1) (some "Ann") (some 1),
           mkPred (some "B") "g1" (JsVal.num 3) (JsVal.num 1) (some "Bob") (some 2)]) = some us →
      us ≠ [] ∧
      ∀ v, alookup v us =
        (match userFechaM (buildGameMap
            [mkGame "g1" (some "finished") none (JsVal.num 2) JsVal.undef (JsVal.num 1) JsVal.undef
              (some "W1") none])
            [mkPred (some "A") "g1" (JsVal.num 2) (JsVal.num 1) (some "Ann") (some 1),
             mkPred (some "B") "g1" (JsVal.num 3) (JsVal.num 1) (some "Bob") (some 2)] v f with
         | [] => none
         | L => some L.sum)) :=
  claim2_fecha_wins_ties
    [mkGame "g1" (some "finished") none (JsVal.num 2) JsVal.undef (JsVal.num 1) JsVal.undef
      (some "W1") none]
    [mkPred (some "A") "g1" (JsVal.num 2) (JsVal.num 1) (some "Ann") (some 1),
     mkPred (some "B") "g1" (JsVal.num 3) (JsVal.num 1) (some "Bob") (some 2)]
    "A" ⟨10, 1, 1, 1⟩ (by decide)

/-- C5 counterexample: against a finished 1-1 draw, a prediction whose
predicted score fields are entirely absent (`undefined`) is not caught by the
`=== null` guard and earns 5 points (matching draw outcome), not 0. -/
theorem claim5_counterexample :
    (mkPred (some "A") "g4" JsVal.undef JsVal.undef none none).predictedHomeScore =
        JsVal.undef ∧
    (mkPred (some "A") "g4" JsVal.undef JsVal.undef none none).predictedAwayScore =
        JsVal.undef ∧
    calculatePoints (mkPred (some "A") "g4" JsVal.undef JsVal.undef none none)
        (mkGame "g4" (some "finished") none (JsVal.num 1) JsVal.undef (JsVal.num 1) JsVal.undef
          none none) = some 5 := by
  decide

/-- C5 amended: for a finished, scoreable game, a prediction whose predicted
scores are the JavaScript value `null` (the stored representation of "no
prediction entered") earns exactly 0 — the integer, not the sentinel — and
the aggregator counts the prediction in `gamesParticipated`. -/
theorem claim5_null_prediction_zero (games : List Game) (preds : List Prediction)
    (p : Prediction) (g : Game)
    (hg : alookup p.gameId (buildGameMap games) = some g)
    (hst : aggStatusOf g = "finished")
    (hhs : aggHomeScore g ≠ JsVal.null) (has : aggAwayScore g ≠ JsVal.null)
    (hph : p.predictedHomeScore = JsVal.null) (hpa : p.predictedAwayScore = JsVal.null) :
    calculatePoints p (normalizedGame g) = some 0 ∧
    (alookup (uidOf p) (calculatePlayerStats games (preds ++ [p]))).map
        (fun s => s.gamesParticipated) =
      some (((alookup (uidOf p) (calculatePlayerStats games preds)).map
        (fun s => s.gamesParticipated)).getD 0 + 1) := by
  have hstatus : gameStatusOf (normalizedGame g) = "finished" := by
    unfold gameStatusOf normalizedGame
    rw [hst]
    dsimp only
    decide
  have hhome : effHomeScore (normalizedGame g) = aggHomeScore g := by
    unfold effHomeScore normalizedGame
    cases h : aggHomeScore g <;> simp [h]
  have haway : effAwayScore (normalizedGame g) = aggAwayScore g := by
    unfold effAwayScore normalizedGame
    cases h : aggAwayScore g <;> simp [h]
  have hpts : calculatePoints p (normalizedGame g) = some 0 := by
    unfold calculatePoints
    rw [if_neg (by
      rw [hstatus, hhome, haway]
      push_neg
      exact ⟨rfl, hhs, has⟩)]
    rw [if_pos (Or.inl hph)]
  refine ⟨hpts, ?_⟩
  have hsingle : predPointsM (buildGameMap games) p = some 0 := by
    unfold predPointsM
    rw [hg]
    exact hpts
  rw [alookup_calculatePlayerStats, alookup_calculatePlayerStats]
  have hmem2 : uidOf p ∈ (preds ++ [p]).map uidOf := by
    rw [List.map_append]
    exact List.mem_append.2 (Or.inr (by simp))
  rw [if_pos hmem2]
  have hlen : (userScoresM (buildGameMap games) (preds ++ [p]) (uidOf p)).length =
      (userScoresM (buildGameMap games) preds (uidOf p)).length + 1 := by
    rw [userScoresM_append, List.length_append, userScoresM_singleton, if_pos rfl, hsingle]
    rfl
  by_cases hm : uidOf p ∈ preds.map uidOf
  · rw [if_pos hm]
    simp only [Option.map_some', Option.getD_some, Option.some.injEq]
    exact hlen
  · rw [if_neg hm]
    simp only [Option.map_none', Option.getD_none, Option.some.injEq]
    rw [hlen, userScoresM_eq_nil_of_not_mem _ _ _ hm]
    rfl

/-- Witness for C5 (amended): a stored-null prediction against a finished
1-1 draw scores 0 and participation rises from 0 to 1. -/
theorem claim5_null_prediction_zero_witness :
    calculatePoints (mkPred (some "A") "g4" JsVal.null JsVal.null none none)
        (normalizedGame
          (mkGame "g4" (some "finished") none (JsVal.num 1) JsVal.undef (JsVal.num 1) JsVal.undef
            none none)) = some 0 ∧
    (alookup (uidOf (mkPred (some "A") "g4" JsVal.null JsVal.null none none))
        (calculatePlayerStats
          [mkGame "g4" (some "finished") none (JsVal.num 1) JsVal.undef (JsVal.num 1) JsVal.undef
            none none]
          ([] ++ [mkPred (some "A") "g4" JsVal.null JsVal.null none none]))).map
        (fun s => s.gamesParticipated) =
      some (((alookup (uidOf (mkPred (some "A") "g4" JsVal.null JsVal.null none none))
        (calculatePlayerStats
          [mkGame "g4" (some "finished") none (JsVal.num 1) JsVal.undef (JsVal.num 1) JsVal.undef
            none none]
          [])).map (fun s => s.gamesParticipated)).getD 0 + 1) :=
  claim5_null_prediction_zero
    [mkGame "g4" (some "finished") none (JsVal.num 1) JsVal.undef (JsVal.num 1) JsVal.undef
      none none]
    []
    (mkPred (some "A") "g4" JsVal.null JsVal.null none none)
    (mkGame "g4" (some "finished") none (JsVal.num 1) JsVal.undef (JsVal.num 1) JsVal.undef
      none none)
    (by decide) (by decide) (by decide) (by decide) rfl rfl

/-- C7: the stats object keys exactly the userIds of the prediction list
(with the literal `'unknown'` substituted when a prediction lacks a userId);
a user all of whose predictions are dangling or unscoreable still appears
with all-zero stats; and appending a prediction whose gameId matches no game
adds no error and changes no existing counter (at most it introduces its
user's all-zero entry). -/
theorem claim7_keys_and_dangling (games : List Game) (preds : List Prediction) :
    (∀ u, (alookup u (calculatePlayerStats games preds)).isSome ↔ u ∈ preds.map uidOf) ∧
    (∀ p : Prediction, p.userId = none → uidOf p = "unknown") ∧
    (∀ u, u ∈ preds.map uidOf →
      (∀ p ∈ preds, uidOf p = u → predPoints games p = none) →
      alookup u (calculatePlayerStats games preds) = some PlayerStats.zero) ∧
    (∀ p₀ : Prediction, alookup p₀.gameId (buildGameMap games) = none → ∀ u,
      alookup u (calculatePlayerStats games (preds ++ [p₀])) =
        if u = uidOf p₀ ∧ u ∉ preds.map uidOf then some PlayerStats.zero
        else alookup u (calculatePlayerStats games preds)) := by
  refine ⟨?_, ?_, ?_, ?_⟩
  · intro u
    rw [alookup_calculatePlayerStats]
    by_cases hm : u ∈ preds.map uidOf <;> simp [hm]
  · intro p hp
    unfold uidOf jsStrOrD
    rw [hp]
    rfl
  · intro u hm hnone
    rw [alookup_calculatePlayerStats, if_pos hm]
    have hscores : userScoresM (buildGameMap games) preds u = [] := by
      unfold userScoresM
      rw [List.filterMap_eq_nil_iff.2]
      intro p hp
      obtain ⟨hpmem, hpu⟩ := List.mem_filter.1 hp
      exact hnone p hpmem (by simpa using hpu)
    have hfw : fechaWins games preds u = 0 := by
      apply fechaWins_eq_zero_of_no_scores
      intro f
      apply userFechaM_eq_nil_of_points_none
      intro p hp hpu
      exact hnone p hp hpu
    rw [hscores, hfw]
    rfl
  · intro p₀ hdang u
    have hnone : predPointsM (buildGameMap games) p₀ = none :=
      predPointsM_none_of_dangling _ _ hdang
    have hfs : fechaScoresOf games (preds ++ [p₀]) = fechaScoresOf games preds :=
      fechaScoresOf_append_none games preds p₀ hnone
    have hscores : ∀ v, userScoresM (buildGameMap games) (preds ++ [p₀]) v =
        userScoresM (buildGameMap games) preds v := by
      intro v
      rw [userScoresM_append, userScoresM_singleton, hnone]
      by_cases hv : uidOf p₀ = v
      · rw [if_pos hv]
        simp
      · rw [if_neg hv]
        simp
    have hfw : ∀ v, fechaWins games (preds ++ [p₀]) v = fechaWins games preds v := by
      intro v
      unfold fechaWins
      rw [hfs]
    rw [alookup_calculatePlayerStats, alookup_calculatePlayerStats]
    have hmem : u ∈ (preds ++ [p₀]).map uidOf ↔ (u ∈ preds.map uidOf ∨ u = uidOf p₀) := by
      rw [List.map_append]
      simp [eq_comm]
    by_cases h1 : u ∈ preds.map uidOf
    · rw [if_pos (hmem.2 (Or.inl h1)), if_pos h1,
        if_neg (fun hc => hc.2 h1), hscores, hfw]
    · by_cases h2 : u = uidOf p₀
      · rw [if_pos (hmem.2 (Or.inr h2)), if_pos ⟨h2, h1⟩, hscores, hfw]
        have hnil : userScoresM (buildGameMap games) preds u = [] :=
          userScoresM_eq_nil_of_not_mem _ _ _ h1
        have hz : fechaWins games preds u = 0 := by
          apply fechaWins_eq_zero_of_no_scores
          intro f
          exact userFechaM_eq_nil_of_not_mem _ _ _ _ h1
        rw [hnil, hz]
        rfl
      · rw [if_neg (fun hc => by
            rcases hmem.1 hc with hc1 | hc1
            · exact h1 hc1
            · exact h2 hc1),
          if_neg (fun hc => h2 hc.1), if_neg h1]

/-- Witness for C7: a single prediction by user A pointing at a non-existent
game against an empty game list. -/
theorem claim7_keys_and_dangling_witness :
    ((alookup "A" (calculatePlayerStats []
        [mkPred (some "A") "nope" (JsVal.num 1) (JsVal.num 0) none none])).isSome ↔
      "A" ∈ [mkPred (some "A") "nope" (JsVal.num 1) (JsVal.num 0) none none].map uidOf) ∧
    uidOf (mkPred none "nope" (JsVal.num 1) (JsVal.num 0) none none) = "unknown" ∧
    alookup "A" (calculatePlayerStats []
        [mkPred (some "A") "nope" (JsVal.num 1) (JsVal.num 0) none none]) =
      some PlayerStats.zero ∧
    alookup "A" (calculatePlayerStats []
        ([] ++ [mkPred (some "A") "nope" (JsVal.num 1) (JsVal.num 0) none none])) =
      (if "A" = uidOf (mkPred (some "A") "nope" (JsVal.num 1) (JsVal.num 0) none none) ∧
          "A" ∉ ([] : List Prediction).map uidOf then some PlayerStats.zero
       else alookup "A" (calculatePlayerStats [] [])) := by
  have h1 := claim7_keys_and_dangling []
    [mkPred (some "A") "nope" (JsVal.num 1) (JsVal.num 0) none none]
  have h2 := claim7_keys_and_dangling [] ([] : List Prediction)
  refine ⟨h1.1 "A",
    h1.2.1 (mkPred none "nope" (JsVal.num 1) (JsVal.num 0) none none) rfl,
    h1.2.2.1 "A" (by decide) (by decide),
    h2.2.2.2 (mkPred (some "A") "nope" (JsVal.num 1) (JsVal.num 0) none none)
      (by decide) "A"⟩

/-- The components through which the aggregator reads a game record: its id,
its normalised status and scores, and its fecha label. -/
def gameKey (g : Game) : String × String × JsVal × JsVal × Option String :=
  (g.id, aggStatusOf g, aggHomeScore g, aggAwayScore g, fechaOf g)

lemma normalizedGame_eq_of_key (g₁ g₂ : Game) (h : gameKey g₁ = gameKey g₂) :
    normalizedGame g₁ = normalizedGame g₂ := by
  simp only [gameKey, Prod.ext_iff] at h
  obtain ⟨h1, h2, h3, h4, h5⟩ := h
  unfold normalizedGame
  rw [h2, h3, h4]

lemma fechaOf_eq_of_key (g₁ g₂ : Game) (h : gameKey g₁ = gameKey g₂) :
    fechaOf g₁ = fechaOf g₂ := by
  simp only [gameKey, Prod.ext_iff] at h
  exact h.2.2.2.2

lemma id_eq_of_key (g₁ g₂ : Game) (h : gameKey g₁ = gameKey g₂) : g₁.id = g₂.id := by
  simp only [gameKey, Prod.ext_iff] at h
  exact h.1

lemma find?_key_congr (l₁ l₂ : List Game) (h : l₁.map gameKey = l₂.map gameKey)
    (gid : String) :
    (l₁.find? (fun g => g.id == gid)).map gameKey =
      (l₂.find? (fun g => g.id == gid)).map gameKey := by
  induction l₁ generalizing l₂ with
  | nil =>
      cases l₂ with
      | nil => rfl
      | cons b t => cases h
  | cons a t ih =>
      cases l₂ with
      | nil => cases h
      | cons b t₂ =>
          rw [List.map_cons, List.map_cons] at h
          injection h with hab ht
          have hid : a.id = b.id := id_eq_of_key a b hab
          by_cases hg : a.id = gid
          · have hb1 : (a.id == gid) = true := by simp [hg]
            have hb2 : (b.id == gid) = true := by simp [hid ▸ hg]
            have e1 : List.find? (fun g => g.id == gid) (a :: t) = some a := by
              simp [List.find?, hb1]
            have e2 : List.find? (fun g => g.id == gid) (b :: t₂) = some b := by
              simp [List.find?, hb2]
            rw [e1, e2]
            simp [hab]
          · have hb1 : (a.id == gid) = false := by simp [hg]
            have hb2 : (b.id == gid) = false := by simp [hid ▸ hg]
            have e1 : List.find? (fun g => g.id == gid) (a :: t) =
                List.find? (fun g => g.id == gid) t := by
              simp [List.find?, hb1]
            have e2 : List.find? (fun g => g.id == gid) (b :: t₂) =
                List.find? (fun g => g.id == gid) t₂ := by
              simp [List.find?, hb2]
            rw [e1, e2]
            exact ih t₂ ht

lemma buildGameMap_key_congr (games₁ games₂ : List Game)
    (h : games₁.map gameKey = games₂.map gameKey) (gid : String) :
    (alookup gid (buildGameMap games₁)).map gameKey =
      (alookup gid (buildGameMap games₂)).map gameKey := by
  rw [alookup_buildGameMap, alookup_buildGameMap]
  apply find?_key_congr
  rw [List.map_reverse, List.map_reverse, h]

lemma predPointsM_key_congr (gm₁ gm₂ : List (String × Game))
    (h : ∀ gid, (alookup gid gm₁).map gameKey = (alookup gid gm₂).map gameKey)
    (p : Prediction) : predPointsM gm₁ p = predPointsM gm₂ p := by
  unfold predPointsM
  have hp := h p.gameId
  cases h1 : alookup p.gameId gm₁ with
  | none =>
      rw [h1] at hp
      cases h2 : alookup p.gameId gm₂ with
      | none => rfl
      | some g₂ =>
          rw [h2] at hp
          simp at hp
  | some g₁ =>
      rw [h1] at hp
      cases h2 : alookup p.gameId gm₂ with
      | none =>
          rw [h2] at hp
          simp at hp
      | some g₂ =>
          rw [h2] at hp
          have hk : gameKey g₁ = gameKey g₂ := by
            simp only [Option.map_some'] at hp
            injection hp
          dsimp only
          rw [normalizedGame_eq_of_key g₁ g₂ hk]

lemma predFechaM_key_congr (gm₁ gm₂ : List (String × Game))
    (h : ∀ gid, (alookup gid gm₁).map gameKey = (alookup gid gm₂).map gameKey)
    (p : Prediction) : predFechaM gm₁ p = predFechaM gm₂ p := by
  unfold predFechaM
  have hp := h p.gameId
  cases h1 : alookup p.gameId gm₁ with
  | none =>
      rw [h1] at hp
      cases h2 : alookup p.gameId gm₂ with
      | none => rfl
      | some g₂ =>
          rw [h2] at hp
          simp at hp
  | some g₁ =>
      rw [h1] at hp
      cases h2 : alookup p.gameId gm₂ with
      | none =>
          rw [h2] at hp
          simp at hp
      | some g₂ =>
          rw [h2] at hp
          have hk : gameKey g₁ = gameKey g₂ := by
            simp only [Option.map_some'] at hp
            injection hp
          dsimp only
          rw [normalizedGame_eq_of_key g₁ g₂ hk, fechaOf_eq_of_key g₁ g₂ hk]

lemma foldl_congr_fun {α β : Type} (f g : β → α → β) (l : List α) (b : β)
    (h : ∀ b a, f b a = g b a) : l.foldl f b = l.foldl g b := by
  induction l generalizing b with
  | nil => rfl
  | cons x t ih =>
      rw [List.foldl_cons, List.foldl_cons, h b x, ih]

lemma calculatePlayerStats_key_congr (games₁ games₂ : List Game) (preds : List Prediction)
    (h : games₁.map gameKey = games₂.map gameKey) :
    calculatePlayerStats games₁ preds = calculatePlayerStats games₂ preds := by
  have hlk := buildGameMap_key_congr games₁ games₂ h
  unfold calculatePlayerStats
  dsimp only
  have hstep : ∀ acc p, scoreStep (buildGameMap games₁) acc p =
      scoreStep (buildGameMap games₂) acc p := by
    intro acc p
    unfold scoreStep
    rw [scoreOnly_eq, scoreOnly_eq, fechaOnly_eq, fechaOnly_eq,
      predPointsM_key_congr _ _ hlk p, predFechaM_key_congr _ _ hlk p]
  rw [foldl_congr_fun _ _ preds _ hstep]

lemma jsStrOr2_flip (s : String) : jsStrOr2 (some s) none = jsStrOr2 none (some s) := by
  unfold jsStrOr2 strTruthy
  by_cases hs : s = "" <;> simp [hs]

lemma gameStatusOf_mkGame_lower (i st : String) (hs Hs aw Aw : JsVal) (fe Fe : Option String) :
    gameStatusOf (mkGame i (some st) none hs Hs aw Aw fe Fe) = jsToLower st := by
  unfold gameStatusOf mkGame jsStrOr2 strTruthy
  dsimp only
  by_cases hst : st = ""
  · subst hst
    simp
  · simp [hst]

lemma gameStatusOf_mkGame_cap (i st : String) (hs Hs aw Aw : JsVal) (fe Fe : Option String) :
    gameStatusOf (mkGame i none (some st) hs Hs aw Aw fe Fe) = jsToLower st := by
  unfold gameStatusOf mkGame jsStrOr2 strTruthy
  dsimp only
  by_cases hst : st = ""
  · subst hst
    simp
  · simp [hst]

lemma calculatePoints_congr (g₁ g₂ : Game) (h1 : gameStatusOf g₁ = gameStatusOf g₂)
    (h2 : effHomeScore g₁ = effHomeScore g₂) (h3 : effAwayScore g₁ = effAwayScore g₂)
    (p : Prediction) : calculatePoints p g₁ = calculatePoints p g₂ := by
  unfold calculatePoints
  rw [h1, h2, h3]

/-- C9: a game carrying status and scores only in capitalised fields and the
same game carrying them only in lower-case fields score identically and
contribute identically to `calculatePlayerStats`; the status comparison is
case-insensitive. -/
theorem claim9_field_casing_equiv (i st : String) (hs aw : JsVal) (fe Fe : Option String) :
    (∀ p : Prediction,
      calculatePoints p (mkGame i (some st) none hs JsVal.undef aw JsVal.undef fe Fe) =
        calculatePoints p (mkGame i none (some st) JsVal.undef hs JsVal.undef aw fe Fe)) ∧
    (∀ (pre post : List Game) (preds : List Prediction),
      calculatePlayerStats
          (pre ++ mkGame i (some st) none hs JsVal.undef aw JsVal.undef fe Fe :: post) preds =
        calculatePlayerStats
          (pre ++ mkGame i none (some st) JsVal.undef hs JsVal.undef aw fe Fe :: post) preds) ∧
    (∀ (p : Prediction) (st₂ : String), jsToLower st = jsToLower st₂ →
      calculatePoints p (mkGame i (some st) none hs JsVal.undef aw JsVal.undef fe Fe) =
        calculatePoints p (mkGame i (some st₂) none hs JsVal.undef aw JsVal.undef fe Fe)) := by
  refine ⟨?_, ?_, ?_⟩
  · intro p
    apply calculatePoints_congr
    · rw [gameStatusOf_mkGame_lower, gameStatusOf_mkGame_cap]
    · unfold effHomeScore mkGame
      cases hs <;> simp
    · unfold effAwayScore mkGame
      cases aw <;> simp
  · intro pre post preds
    apply calculatePlayerStats_key_congr
    rw [List.map_append, List.map_append, List.map_cons, List.map_cons]
    have hkey : gameKey (mkGame i (some st) none hs JsVal.undef aw JsVal.undef fe Fe) =
        gameKey (mkGame i none (some st) JsVal.undef hs JsVal.undef aw fe Fe) := by
      unfold gameKey aggStatusOf aggHomeScore aggAwayScore fechaOf mkGame
      dsimp only
      rw [jsStrOr2_flip]
      cases hs <;> cases aw <;> simp
    rw [hkey]
  · intro p st₂ hlow
    apply calculatePoints_congr
    · rw [gameStatusOf_mkGame_lower, gameStatusOf_mkGame_lower, hlow]
    · rfl
    · rfl

/-- Witness for C9 at a concrete game and prediction. -/
theorem claim9_field_casing_equiv_witness :
    calculatePoints (mkPred (some "A") "g1" (JsVal.num 2) (JsVal.num 1) none none)
        (mkGame "g1" (some "FINISHED") none (JsVal.num 2) JsVal.undef (JsVal.num 1) JsVal.undef
          (some "W1") none) =
      calculatePoints (mkPred (some "A") "g1" (JsVal.num 2) (JsVal.num 1) none none)
        (mkGame "g1" (some "finished") none (JsVal.num 2) JsVal.undef (JsVal.num 1) JsVal.undef
          (some "W1") none) ∧
    calculatePlayerStats
        ([] ++ mkGame "g1" (some "finished") none (JsVal.num 2) JsVal.undef (JsVal.num 1)
            JsVal.undef (some "W1") none :: [])
        [mkPred (some "A") "g1" (JsVal.num 2) (JsVal.num 1) none none] =
      calculatePlayerStats
        ([] ++ mkGame "g1" none (some "finished") JsVal.undef (JsVal.num 2) JsVal.undef
            (JsVal.num 1) (some "W1") none :: [])
        [mkPred (some "A") "g1" (JsVal.num 2) (JsVal.num 1) none none] :=
  ⟨(claim9_field_casing_equiv "g1" "FINISHED" (JsVal.num 2) (JsVal.num 1) (some "W1")
      none).2.2 (mkPred (some "A") "g1" (JsVal.num 2) (JsVal.num 1) none none) "finished"
      (by decide),
   (claim9_field_casing_equiv "g1" "finished" (JsVal.num 2) (JsVal.num 1) (some "W1")
      none).2.1 [] [] [mkPred (some "A") "g1" (JsVal.num 2) (JsVal.num 1) none none]⟩

lemma char_toNat_inj (a b : Char) (h : a.toNat = b.toNat) : a = b :=
  Char.ext (UInt32.toNat.inj h)

lemma strLtb_irrefl (l : List Char) : strLtb l l = false := by
  induction l with
  | nil => rfl
  | cons a t ih => simp [strLtb, ih]

lemma strLtb_asymm (l₁ l₂ : List Char) (h : strLtb l₁ l₂ = true) : strLtb l₂ l₁ = false := by
  induction l₁ generalizing l₂ with
  | nil =>
      cases l₂ with
      | nil => cases h
      | cons b t => rfl
  | cons a t ih =>
      cases l₂ with
      | nil => cases h
      | cons b t₂ =>
          unfold strLtb at h ⊢
          by_cases h1 : a.toNat < b.toNat
          · have h2 : ¬ b.toNat < a.toNat := by omega
            simp [h1, h2]
          · by_cases h2 : b.toNat < a.toNat
            · simp [h1, h2] at h
            · simp only [if_neg h1, if_neg h2] at h ⊢
              exact ih t₂ h

lemma strLtb_trans (l₁ l₂ l₃ : List Char) (h12 : strLtb l₁ l₂ = true)
    (h23 : strLtb l₂ l₃ = true) : strLtb l₁ l₃ = true := by
  induction l₁ generalizing l₂ l₃ with
  | nil =>
      cases l₃ with
      | nil =>
          cases l₂ with
          | nil => cases h12
          | cons b t₂ => cases h23
      | cons c t₃ => rfl
  | cons a t ih =>
      cases l₂ with
      | nil => cases h12
      | cons b t₂ =>
          cases l₃ with
          | nil => cases h23
          | cons c t₃ =>
              unfold strLtb at h12 h23 ⊢
              by_cases hab : a.toNat < b.toNat
              · by_cases hbc : b.toNat < c.toNat
                · simp [show a.toNat < c.toNat by omega]
                · by_cases hcb : c.toNat < b.toNat
                  · simp [hbc, hcb] at h23
                  · have hbceq : b.toNat = c.toNat := by omega
                    simp [show a.toNat < c.toNat by omega]
              · by_cases hba : b.toNat < a.toNat
                · simp [hab, hba] at h12
                · have habeq : a.toNat = b.toNat := by omega
                  simp only [if_neg hab, if_neg hba] at h12
                  by_cases hbc : b.toNat < c.toNat
                  · simp [show a.toNat < c.toNat by omega]
                  · by_cases hcb : c.toNat < b.toNat
                    · simp [hbc, hcb] at h23
                    · have h1 : ¬ a.toNat < c.toNat := by omega
                      have h2 : ¬ c.toNat < a.toNat := by omega
                      simp only [if_neg hbc, if_neg hcb] at h23
                      simp only [if_neg h1, if_neg h2]
                      exact ih t₂ t₃ h12 h23

lemma strLtb_eq_of_not (l₁ l₂ : List Char) (h12 : strLtb l₁ l₂ = false)
    (h21 : strLtb l₂ l₁ = false) : l₁ = l₂ := by
  induction l₁ generalizing l₂ with
  | nil =>
      cases l₂ with
      | nil => rfl
      | cons b t => cases h12
  | cons a t ih =>
      cases l₂ with
      | nil => cases h21
      | cons b t₂ =>
          unfold strLtb at h12 h21
          by_cases hab : a.toNat < b.toNat
          · simp [hab] at h12
          · by_cases hba : b.toNat < a.toNat
            · simp [hab, hba] at h12
              simp [hba] at h21
            · simp only [if_neg hab, if_neg hba] at h12 h21
              rw [char_toNat_inj a b (by omega), ih t₂ h12 h21]

/-- The ranking relation the leaderboard is specified to produce: more total
points first, then more fechas won, then more perfect scores, then display
name ascending (display names computed by `getLatestPlayerName`). -/
def ranksAtLeast (predictions : List Prediction) (a b : String × PlayerStats) : Prop :=
  b.2.totalPoints < a.2.totalPoints ∨
  (a.2.totalPoints = b.2.totalPoints ∧
    (b.2.fechasWonCount < a.2.fechasWonCount ∨
      (a.2.fechasWonCount = b.2.fechasWonCount ∧
        (b.2.perfectScoresCount < a.2.perfectScoresCount ∨
          (a.2.perfectScoresCount = b.2.perfectScoresCount ∧
            (strLtb (getLatestPlayerName predictions a.1).data
                (getLatestPlayerName predictions b.1).data = true ∨
              getLatestPlayerName predictions a.1 = getLatestPlayerName predictions b.1))))))

lemma localeCompare_le_iff (x y : String) :
    localeCompare x y ≤ 0 ↔ (strLtb x.data y.data = true ∨ x = y) := by
  unfold localeCompare
  cases hxy : strLtb x.data y.data
  · cases hyx : strLtb y.data x.data
    · simp only [Bool.false_eq_true, if_false]
      constructor
      · intro hc
        exact Or.inr (String.ext (strLtb_eq_of_not x.data y.data hxy hyx))
      · intro hc
        norm_num
    · simp only [Bool.false_eq_true, if_false, if_true]
      constructor
      · intro hc
        norm_num at hc
      · rintro (hc | hc)
        · cases hc
        · subst hc
          rw [strLtb_irrefl] at hyx
          cases hyx
  · simp only [if_true]
    constructor
    · intro hc
      exact Or.inl (by trivial)
    · intro hc
      norm_num

lemma comparePlayers_le_iff (predictions : List Prediction) (a b : String × PlayerStats) :
    comparePlayers predictions a b ≤ 0 ↔ ranksAtLeast predictions a b := by
  unfold comparePlayers ranksAtLeast
  by_cases h1 : b.2.totalPoints ≠ a.2.totalPoints
  · rw [if_pos h1]
    constructor
    · intro hc
      exact Or.inl (by omega)
    · rintro (hc | ⟨hc, -⟩)
      · omega
      · omega
  · rw [if_neg h1]
    push_neg at h1
    by_cases h2 : b.2.fechasWonCount ≠ a.2.fechasWonCount
    · rw [if_pos h2]
      constructor
      · intro hc
        exact Or.inr ⟨h1.symm, Or.inl (by omega)⟩
      · rintro (hc | ⟨-, hc | ⟨hc, -⟩⟩)
        · omega
        · omega
        · omega
    · rw [if_neg h2]
      push_neg at h2
      by_cases h3 : b.2.perfectScoresCount ≠ a.2.perfectScoresCount
      · rw [if_pos h3]
        constructor
        · intro hc
          exact Or.inr ⟨h1.symm, Or.inr ⟨h2.symm, Or.inl (by omega)⟩⟩
        · rintro (hc | ⟨-, hc | ⟨-, hc | ⟨hc, -⟩⟩⟩)
          · omega
          · omega
          · omega
          · omega
      · rw [if_neg h3]
        push_neg at h3
        rw [localeCompare_le_iff]
        constructor
        · intro hc
          exact Or.inr ⟨h1.symm, Or.inr ⟨h2.symm, Or.inr ⟨h3.symm, hc⟩⟩⟩
        · rintro (hc | ⟨-, hc | ⟨-, hc | ⟨-, hc⟩⟩⟩)
          · omega
          · omega
          · omega
          · exact hc

lemma ranksAtLeast_trans (predictions : List Prediction) (a b c : String × PlayerStats)
    (hab : ranksAtLeast predictions a b) (hbc : ranksAtLeast predictions b c) :
    ranksAtLeast predictions a c := by
  unfold ranksAtLeast at hab hbc ⊢
  rcases hab with h1 | ⟨h1, hab⟩
  · rcases hbc with h2 | ⟨h2, hbc⟩
    · exact Or.inl (by omega)
    · exact Or.inl (by omega)
  · rcases hbc with h2 | ⟨h2, hbc⟩
    · exact Or.inl (by omega)
    · refine Or.inr ⟨by omega, ?_⟩
      rcases hab with h3 | ⟨h3, hab⟩
      · rcases hbc with h4 | ⟨h4, hbc⟩
        · exact Or.inl (by omega)
        · exact Or.inl (by omega)
      · rcases hbc with h4 | ⟨h4, hbc⟩
        · exact Or.inl (by omega)
        · refine Or.inr ⟨by omega, ?_⟩
          rcases hab with h5 | ⟨h5, hab⟩
          · rcases hbc with h6 | ⟨h6, hbc⟩
            · exact Or.inl (by omega)
            · exact Or.inl (by omega)
          · rcases hbc with h6 | ⟨h6, hbc⟩
            · exact Or.inl (by omega)
            · refine Or.inr ⟨by omega, ?_⟩
              rcases hab with h7 | h7
              · rcases hbc with h8 | h8
                · exact Or.inl (strLtb_trans _ _ _ h7 h8)
                · rw [← h8]
                  exact Or.inl h7
              · rcases hbc with h8 | h8
                · rw [h7]
                  exact Or.inl h8
                · exact Or.inr (h7.trans h8)

lemma ranksAtLeast_total (predictions : List Prediction) (a b : String × PlayerStats) :
    ranksAtLeast predictions a b ∨ ranksAtLeast predictions b a := by
  unfold ranksAtLeast
  rcases Nat.lt_trichotomy a.2.totalPoints b.2.totalPoints with h1 | h1 | h1
  · exact Or.inr (Or.inl h1)
  · rcases Nat.lt_trichotomy a.2.fechasWonCount b.2.fechasWonCount with h2 | h2 | h2
    · exact Or.inr (Or.inr ⟨h1.symm, Or.inl h2⟩)
    · rcases Nat.lt_trichotomy a.2.perfectScoresCount b.2.perfectScoresCount with h3 | h3 | h3
      · exact Or.inr (Or.inr ⟨h1.symm, Or.inr ⟨h2.symm, Or.inl h3⟩⟩)
      · cases hn : strLtb (getLatestPlayerName predictions a.1).data
            (getLatestPlayerName predictions b.1).data
        · cases hn2 : strLtb (getLatestPlayerName predictions b.1).data
              (getLatestPlayerName predictions a.1).data
          · refine Or.inl (Or.inr ⟨h1, Or.inr ⟨h2, Or.inr ⟨h3, Or.inr ?_⟩⟩⟩)
            exact String.ext (strLtb_eq_of_not _ _ hn hn2)
          · exact Or.inr (Or.inr ⟨h1.symm, Or.inr ⟨h2.symm, Or.inr ⟨h3.symm, Or.inl (by trivial)⟩⟩⟩)
        · exact Or.inl (Or.inr ⟨h1, Or.inr ⟨h2, Or.inr ⟨h3, Or.inl (by trivial)⟩⟩⟩)
      · exact Or.inl (Or.inr ⟨h1, Or.inr ⟨h2, Or.inl h3⟩⟩)
    · exact Or.inl (Or.inr ⟨h1, Or.inl h2⟩)
  · exact Or.inl (Or.inl h1)

lemma ranksAtLeast_antisymm_parts (predictions : List Prediction) (a b : String × PlayerStats)
    (hab : ranksAtLeast predictions a b) (hba : ranksAtLeast predictions b a) :
    a.2.totalPoints = b.2.totalPoints ∧ a.2.fechasWonCount = b.2.fechasWonCount ∧
    a.2.perfectScoresCount = b.2.perfectScoresCount ∧
    getLatestPlayerName predictions a.1 = getLatestPlayerName predictions b.1 := by
  unfold ranksAtLeast at hab hba
  rcases hab with h1 | ⟨h1, hab⟩
  · rcases hba with h2 | ⟨h2, -⟩
    · omega
    · omega
  · rcases hba with h2 | ⟨h2, hba⟩
    · omega
    · refine ⟨h1, ?_⟩
      rcases hab with h3 | ⟨h3, hab⟩
      · rcases hba with h4 | ⟨h4, -⟩
        · omega
        · omega
      · rcases hba with h4 | ⟨h4, hba⟩
        · omega
        · refine ⟨h3, ?_⟩
          rcases hab with h5 | ⟨h5, hab⟩
          · rcases hba with h6 | ⟨h6, -⟩
            · omega
            · omega
          · rcases hba with h6 | ⟨h6, hba⟩
            · omega
            · refine ⟨h5, ?_⟩
              rcases hab with h7 | h7
              · rcases hba with h8 | h8
                · rw [strLtb_asymm _ _ h7] at h8
                  cases h8
                · exact h8.symm
              · exact h7

lemma latest_fold_spec (h : Prediction) (l : List Prediction) :
    ((l.foldl (fun latest pred => if predTime latest < predTime pred then pred else latest) h)
        = h ∨
      (l.foldl (fun latest pred => if predTime latest < predTime pred then pred else latest) h)
        ∈ l) ∧
    predTime h ≤
      predTime (l.foldl (fun latest pred =>
        if predTime latest < predTime pred then pred else latest) h) ∧
    ∀ q ∈ l, predTime q ≤
      predTime (l.foldl (fun latest pred =>
        if predTime latest < predTime pred then pred else latest) h) := by
  induction l generalizing h with
  | nil => exact ⟨Or.inl rfl, le_refl _, by simp⟩
  | cons p t ih =>
      rw [List.foldl_cons]
      set h2 := if predTime h < predTime p then p else h with hh2
      obtain ⟨ihm, ihle, ihall⟩ := ih h2
      have hh2le : predTime h ≤ predTime h2 := by
        rw [hh2]
        by_cases hc : predTime h < predTime p
        · rw [if_pos hc]
          omega
        · rw [if_neg hc]
      have hple : predTime p ≤ predTime h2 := by
        rw [hh2]
        by_cases hc : predTime h < predTime p
        · rw [if_pos hc]
        · rw [if_neg hc]
          omega
      refine ⟨?_, le_trans hh2le ihle, ?_⟩
      · rcases ihm with hm | hm
        · rw [hm, hh2]
          by_cases hc : predTime h < predTime p
          · rw [if_pos hc]
            exact Or.inr (List.mem_cons_self p t)
          · rw [if_neg hc]
            exact Or.inl rfl
        · exact Or.inr (List.mem_cons_of_mem _ hm)
      · intro q hq
        rcases List.mem_cons.1 hq with rfl | hq2
        · exact le_trans hple ihle
        · exact ihall q hq2

lemma getLatestPlayerName_no_preds (predictions : List Prediction) (u : String)
    (h : ∀ p ∈ predictions, ¬ p.userId = some u) :
    getLatestPlayerName predictions u = u := by
  unfold getLatestPlayerName
  have hfil : predictions.filter (fun p => p.userId == some u) = [] := by
    rw [List.filter_eq_nil_iff.2]
    intro p hp
    simp only [beq_iff_eq]
    exact h p hp
  rw [hfil]

lemma getLatestPlayerName_unique_max (predictions : List Prediction) (u : String)
    (p₀ : Prediction) (nm : String)
    (hmem : p₀ ∈ predictions) (huid : p₀.userId = some u)
    (hnm : p₀.playerName = some nm) (hne : nm ≠ "")
    (hmax : ∀ q ∈ predictions, q.userId = some u → q ≠ p₀ → predTime q < predTime p₀) :
    getLatestPlayerName predictions u = nm := by
  unfold getLatestPlayerName
  have hp₀fil : p₀ ∈ predictions.filter (fun p => p.userId == some u) :=
    List.mem_filter.2 ⟨hmem, by simp [huid]⟩
  cases hfil : predictions.filter (fun p => p.userId == some u) with
  | nil =>
      rw [hfil] at hp₀fil
      cases hp₀fil
  | cons h t =>
      dsimp only
      obtain ⟨hm, hle, hall⟩ := latest_fold_spec h (h :: t)
      set latest := (h :: t).foldl
        (fun latest pred => if predTime latest < predTime pred then pred else latest) h with hl
      have hlat_mem : latest ∈ predictions.filter (fun p => p.userId == some u) := by
        rw [hfil]
        rcases hm with hm1 | hm1
        · rw [hm1]
          exact List.mem_cons_self h t
        · exact hm1
      have hlat_uid : latest.userId = some u := by
        have := (List.mem_filter.1 hlat_mem).2
        simpa using this
      have hlat_in : latest ∈ predictions := (List.mem_filter.1 hlat_mem).1
      have hp₀le : predTime p₀ ≤ predTime latest := by
        rw [hfil] at hp₀fil
        rcases List.mem_cons.1 hp₀fil with rfl | hp2
        · exact hle
        · exact hall p₀ (List.mem_cons_of_mem _ hp2)
      have hlatp₀ : latest = p₀ := by
        by_contra hc
        have := hmax latest hlat_in hlat_uid hc
        omega
      rw [hlatp₀, hnm]
      unfold jsStrOrD strTruthy
      simp [hne]

/-- C6: `sortPlayersByStats` returns a permutation of the stats entries that
is sorted by the specified chain — total points descending, then fechas won,
then perfect scores, then display name ascending, the display name being the
most-recent-by-timestamp prediction's `playerName`, falling back to the
userId when the user has no predictions; in particular (20,3,0) ranks above
(20,2,1). -/
theorem claim6_leaderboard_order (playerStats : List (String × PlayerStats))
    (predictions : List Prediction) :
    (sortPlayersByStats playerStats predictions).Perm playerStats ∧
    List.Sorted (ranksAtLeast predictions) (sortPlayersByStats playerStats predictions) ∧
    (∀ u, (∀ p ∈ predictions, ¬ p.userId = some u) →
      getLatestPlayerName predictions u = u) ∧
    (∀ u (p₀ : Prediction) (nm : String), p₀ ∈ predictions → p₀.userId = some u →
      p₀.playerName = some nm → nm ≠ "" →
      (∀ q ∈ predictions, q.userId = some u → q ≠ p₀ → predTime q < predTime p₀) →
      getLatestPlayerName predictions u = nm) ∧
    sortPlayersByStats [("X", ⟨20, 2, 1, 0⟩), ("Y", ⟨20, 3, 0, 0⟩)] [] =
      [("Y", ⟨20, 3, 0, 0⟩), ("X", ⟨20, 2, 1, 0⟩)] := by
  refine ⟨List.perm_insertionSort _ _, ?_,
    fun u h => getLatestPlayerName_no_preds predictions u h,
    fun u p₀ nm h1 h2 h3 h4 h5 =>
      getLatestPlayerName_unique_max predictions u p₀ nm h1 h2 h3 h4 h5,
    by decide⟩
  haveI htr : IsTrans (String × PlayerStats)
      (fun a b => comparePlayers predictions a b ≤ 0) := by
    refine ⟨fun a b c hab hbc => ?_⟩
    rw [comparePlayers_le_iff] at hab hbc ⊢
    exact ranksAtLeast_trans predictions a b c hab hbc
  haveI hto : IsTotal (String × PlayerStats)
      (fun a b => comparePlayers predictions a b ≤ 0) := by
    refine ⟨fun a b => ?_⟩
    rw [comparePlayers_le_iff, comparePlayers_le_iff]
    exact ranksAtLeast_total predictions a b
  have hs := List.sorted_insertionSort
    (fun a b => comparePlayers predictions a b ≤ 0) playerStats
  exact hs.imp (fun hab => (comparePlayers_le_iff predictions _ _).1 hab)

/-- Witness for C6 at concrete inputs: fallback to the userId for a user with
no predictions, and the latest-by-timestamp playerName otherwise. -/
theorem claim6_leaderboard_order_witness :
    getLatestPlayerName
        [mkPred (some "B") "g1" (JsVal.num 3) (JsVal.num 1) (some "Bo") (some 1),
         mkPred (some "B") "g1" (JsVal.num 3) (JsVal.num 1) (some "Bob") (some 2)] "C" = "C" ∧
    getLatestPlayerName
        [mkPred (some "B") "g1" (JsVal.num 3) (JsVal.num 1) (some "Bo") (some 1),
         mkPred (some "B") "g1" (JsVal.num 3) (JsVal.num 1) (some "Bob") (some 2)] "B" =
      "Bob" :=
  ⟨(claim6_leaderboard_order []
      [mkPred (some "B") "g1" (JsVal.num 3) (JsVal.num 1) (some "Bo") (some 1),
       mkPred (some "B") "g1" (JsVal.num 3) (JsVal.num 1) (some "Bob") (some 2)]).2.2.1 "C"
      (by decide),
   (claim6_leaderboard_order []
      [mkPred (some "B") "g1" (JsVal.num 3) (JsVal.num 1) (some "Bo") (some 1),
       mkPred (some "B") "g1" (JsVal.num 3) (JsVal.num 1) (some "Bob") (some 2)]).2.2.2.1 "B"
      (mkPred (some "B") "g1" (JsVal.num 3) (JsVal.num 1) (some "Bob") (some 2)) "Bob"
      (by decide) rfl rfl (by decide) (by decide)⟩

lemma buildGameMap_perm_ext (games games' : List Game) (hG : games.Perm games')
    (hnd : (games.map Game.id).Nodup) (gid : String) :
    alookup gid (buildGameMap games) = alookup gid (buildGameMap games') := by
  have hnd2 : (games'.map Game.id).Nodup := ((hG.map Game.id).nodup_iff).1 hnd
  cases h1 : alookup gid (buildGameMap games) with
  | some g =>
      obtain ⟨hmem, hid⟩ := (buildGameMap_eq_some_iff games gid g hnd).1 h1
      exact ((buildGameMap_eq_some_iff games' gid g hnd2).2 ⟨hG.mem_iff.1 hmem, hid⟩).symm
  | none =>
      cases h2 : alookup gid (buildGameMap games') with
      | none => rfl
      | some g =>
          obtain ⟨hmem, hid⟩ := (buildGameMap_eq_some_iff games' gid g hnd2).1 h2
          rw [(buildGameMap_eq_some_iff games gid g hnd).2 ⟨hG.mem_iff.2 hmem, hid⟩] at h1
          cases h1

lemma predPointsM_ext (gm₁ gm₂ : List (String × Game))
    (h : ∀ gid, alookup gid gm₁ = alookup gid gm₂) (p : Prediction) :
    predPointsM gm₁ p = predPointsM gm₂ p := by
  unfold predPointsM
  rw [h p.gameId]

lemma predFechaM_ext (gm₁ gm₂ : List (String × Game))
    (h : ∀ gid, alookup gid gm₁ = alookup gid gm₂) (p : Prediction) :
    predFechaM gm₁ p = predFechaM gm₂ p := by
  unfold predFechaM
  rw [h p.gameId]

lemma userScoresM_perm_ext (gm₁ gm₂ : List (String × Game)) (preds preds' : List Prediction)
    (hgm : ∀ gid, alookup gid gm₁ = alookup gid gm₂) (hP : preds.Perm preds') (u : String) :
    (userScoresM gm₁ preds u).Perm (userScoresM gm₂ preds' u) := by
  unfold userScoresM
  have h1 : List.filterMap (predPointsM gm₁) (preds.filter (fun p => uidOf p == u)) =
      List.filterMap (predPointsM gm₂) (preds.filter (fun p => uidOf p == u)) :=
    List.filterMap_congr (fun p _ => predPointsM_ext gm₁ gm₂ hgm p)
  rw [h1]
  exact (hP.filter _).filterMap _

lemma userFechaM_perm_ext (gm₁ gm₂ : List (String × Game)) (preds preds' : List Prediction)
    (hgm : ∀ gid, alookup gid gm₁ = alookup gid gm₂) (hP : preds.Perm preds') (u f : String) :
    (userFechaM gm₁ preds u f).Perm (userFechaM gm₂ preds' u f) := by
  unfold userFechaM
  have h1 : ∀ l : List Prediction,
      List.filterMap (fun p =>
        match predFechaM gm₁ p with
        | none => none
        | some fp => if fp.1 = f then some fp.2 else none) l =
      List.filterMap (fun p =>
        match predFechaM gm₂ p with
        | none => none
        | some fp => if fp.1 = f then some fp.2 else none) l := by
    intro l
    exact List.filterMap_congr (fun p _ => by rw [predFechaM_ext gm₁ gm₂ hgm p])
  rw [h1]
  exact (hP.filter _).filterMap _

lemma matchSum_eq (l : List Nat) :
    (match l with
     | [] => (none : Option Nat)
     | L => some L.sum) = if l = [] then none else some l.sum := by
  cases l <;> simp

lemma ifSum_perm (l l' : List Nat) (h : l.Perm l') :
    (if l = [] then (none : Option Nat) else some l.sum) =
      (if l' = [] then none else some l'.sum) := by
  by_cases hl : l = []
  · subst hl
    have hl2 : l' = [] := h.symm.eq_nil
    rw [hl2]
  · have hl2 : l' ≠ [] := fun hc => hl (by
      rw [hc] at h
      exact h.eq_nil)
    rw [if_neg hl, if_neg hl2, h.sum_eq]

lemma lookup2_fechaScoresOf_if (games : List Game) (preds : List Prediction) (f v : String) :
    lookup2 f v (fechaScoresOf games preds) =
      if userFechaM (buildGameMap games) preds v f = [] then none
      else some (userFechaM (buildGameMap games) preds v f).sum := by
  rw [lookup2_fechaScoresOf]
  cases h : userFechaM (buildGameMap games) preds v f <;> simp [h]

lemma lookup2_perm_ext (games games' : List Game) (preds preds' : List Prediction)
    (hgm : ∀ gid, alookup gid (buildGameMap games) = alookup gid (buildGameMap games'))
    (hP : preds.Perm preds') (f v : String) :
    lookup2 f v (fechaScoresOf games preds) = lookup2 f v (fechaScoresOf games' preds') := by
  rw [lookup2_fechaScoresOf_if, lookup2_fechaScoresOf_if]
  exact ifSum_perm _ _ (userFechaM_perm_ext _ _ preds preds' hgm hP v f)

lemma isSome_fechaScoresOf_iff (games : List Game) (preds : List Prediction) (f : String) :
    (alookup f (fechaScoresOf games preds)).isSome ↔
      ∃ p ∈ preds, ∃ fp, predFechaM (buildGameMap games) p = some fp ∧ fp.1 = f := by
  unfold fechaScoresOf
  rw [isSome_fechaFold]
  constructor
  · rintro (h1 | h1)
    · simp [alookup] at h1
    · exact h1
  · intro h1
    exact Or.inr h1

lemma keys_fechaScoresOf_perm (games games' : List Game) (preds preds' : List Prediction)
    (hgm : ∀ gid, alookup gid (buildGameMap games) = alookup gid (buildGameMap games'))
    (hP : preds.Perm preds') :
    ((fechaScoresOf games preds).map Prod.fst).Perm
      ((fechaScoresOf games' preds').map Prod.fst) := by
  have hnd : ((fechaScoresOf games preds).map Prod.fst).Nodup :=
    nodup_keys_fechaFold (buildGameMap games) preds [] (by simp)
  have hnd' : ((fechaScoresOf games' preds').map Prod.fst).Nodup :=
    nodup_keys_fechaFold (buildGameMap games') preds' [] (by simp)
  rw [List.perm_ext_iff_of_nodup hnd hnd']
  intro f
  rw [← alookup_isSome_iff_mem, ← alookup_isSome_iff_mem,
    isSome_fechaScoresOf_iff, isSome_fechaScoresOf_iff]
  constructor
  · rintro ⟨p, hp, fp, hfp, hf⟩
    exact ⟨p, hP.mem_iff.1 hp, fp, by rw [← predFechaM_ext _ _ hgm p, hfp], hf⟩
  · rintro ⟨p, hp, fp, hfp, hf⟩
    exact ⟨p, hP.mem_iff.2 hp, fp, by rw [predFechaM_ext _ _ hgm p, hfp], hf⟩

lemma mem_pair_iff_alookup {α : Type} (m : List (String × α)) (hnd : (m.map Prod.fst).Nodup)
    (k : String) (v : α) : (k, v) ∈ m ↔ alookup k m = some v := by
  constructor
  · exact alookup_eq_some_of_mem k v m hnd
  · exact mem_of_alookup_eq_some k v m

lemma inner_perm_of_lookup_ext (us us' : List (String × Nat))
    (hnd : (us.map Prod.fst).Nodup) (hnd' : (us'.map Prod.fst).Nodup)
    (h : ∀ v, alookup v us = alookup v us') : us.Perm us' := by
  rw [List.perm_ext_iff_of_nodup (List.Nodup.of_map _ hnd) (List.Nodup.of_map _ hnd')]
  rintro ⟨v, t⟩
  rw [mem_pair_iff_alookup us hnd v t, mem_pair_iff_alookup us' hnd' v t, h v]

lemma maxValues_perm (us us' : List (String × Nat)) (h : us.Perm us') :
    maxValues us = maxValues us' := by
  unfold maxValues
  have hgen : ∀ (l l' : List (String × Nat)), l.Perm l' → ∀ acc : Nat,
      l.foldl (fun m e => max m e.2) acc = l'.foldl (fun m e => max m e.2) acc := by
    intro l l' hperm
    induction hperm with
    | nil => intro acc; rfl
    | cons x h ih => intro acc; simp [List.foldl_cons, ih]
    | swap x y l =>
        intro acc
        simp only [List.foldl_cons]
        rw [show max (max acc y.2) x.2 = max (max acc x.2) y.2 from by omega]
    | trans h₁ h₂ ih₁ ih₂ => intro acc; rw [ih₁, ih₂]
  exact hgen us us' h 0

lemma fechaWins_perm_ext (games games' : List Game) (preds preds' : List Prediction)
    (hgm : ∀ gid, alookup gid (buildGameMap games) = alookup gid (buildGameMap games'))
    (hP : preds.Perm preds') (u : String) :
    fechaWins games preds u = fechaWins games' preds' u := by
  unfold fechaWins
  have hnd : ((fechaScoresOf games preds).map Prod.fst).Nodup :=
    nodup_keys_fechaFold (buildGameMap games) preds [] (by simp)
  have hnd' : ((fechaScoresOf games' preds').map Prod.fst).Nodup :=
    nodup_keys_fechaFold (buildGameMap games') preds' [] (by simp)
  have hinner : ∀ e ∈ fechaScoresOf games preds, (e.2.map Prod.fst).Nodup :=
    inner_nodup_fechaFold (buildGameMap games) preds [] (by simp)
  have hinner' : ∀ e ∈ fechaScoresOf games' preds', (e.2.map Prod.fst).Nodup :=
    inner_nodup_fechaFold (buildGameMap games') preds' [] (by simp)
  -- reduce each side to a count over its key list
  have hkeys1 : (fechaScoresOf games preds).countP
        (fun e => decide (0 < e.2.length) && atMax u e.2) =
      ((fechaScoresOf games preds).map Prod.fst).countP (fun f =>
        decide (0 < ((alookup f (fechaScoresOf games preds)).getD []).length) &&
          atMax u ((alookup f (fechaScoresOf games preds)).getD [])) := by
    clear hnd' hinner'
    generalize hS : fechaScoresOf games preds = S at hnd hinner ⊢
    clear hS
    induction S with
    | nil => rfl
    | cons e t ih =>
        obtain ⟨f0, us0⟩ := e
        rw [List.map_cons, List.nodup_cons] at hnd
        rw [List.countP_cons, List.map_cons, List.countP_cons]
        have hself : alookup f0 ((f0, us0) :: t) = some us0 := by
          simp [alookup]
        rw [hself]
        have htail : t.countP (fun e => decide (0 < e.2.length) && atMax u e.2) =
            (t.map Prod.fst).countP (fun f =>
              decide (0 < ((alookup f t).getD []).length) &&
                atMax u ((alookup f t).getD [])) :=
          ih hnd.2 (fun e he => hinner e (List.mem_cons_of_mem _ he))
        rw [htail]
        congr 1
        apply countP_congr_mem
        intro f hf
        have hne : f0 ≠ f := fun hc => hnd.1 (hc ▸ hf)
        rw [show alookup f ((f0, us0) :: t) = alookup f t from by simp [alookup, hne]]
  have hkeys2 : (fechaScoresOf games' preds').countP
        (fun e => decide (0 < e.2.length) && atMax u e.2) =
      ((fechaScoresOf games' preds').map Prod.fst).countP (fun f =>
        decide (0 < ((alookup f (fechaScoresOf games' preds')).getD []).length) &&
          atMax u ((alookup f (fechaScoresOf games' preds')).getD [])) := by
    clear hnd hinner
    generalize hS : fechaScoresOf games' preds' = S at hnd' hinner' ⊢
    clear hS
    induction S with
    | nil => rfl
    | cons e t ih =>
        obtain ⟨f0, us0⟩ := e
        rw [List.map_cons, List.nodup_cons] at hnd'
        rw [List.countP_cons, List.map_cons, List.countP_cons]
        have hself : alookup f0 ((f0, us0) :: t) = some us0 := by
          simp [alookup]
        rw [hself]
        have htail : t.countP (fun e => decide (0 < e.2.length) && atMax u e.2) =
            (t.map Prod.fst).countP (fun f =>
              decide (0 < ((alookup f t).getD []).length) &&
                atMax u ((alookup f t).getD [])) :=
          ih hnd'.2 (fun e he => hinner' e (List.mem_cons_of_mem _ he))
        rw [htail]
        congr 1
        apply countP_congr_mem
        intro f hf
        have hne : f0 ≠ f := fun hc => hnd'.1 (hc ▸ hf)
        rw [show alookup f ((f0, us0) :: t) = alookup f t from by simp [alookup, hne]]
  rw [hkeys1, hkeys2]
  -- the per-key predicates agree for every key
  have hpred : ∀ f,
      (decide (0 < ((alookup f (fechaScoresOf games preds)).getD []).length) &&
        atMax u ((alookup f (fechaScoresOf games preds)).getD [])) =
      (decide (0 < ((alookup f (fechaScoresOf games' preds')).getD []).length) &&
        atMax u ((alookup f (fechaScoresOf games' preds')).getD [])) := by
    intro f
    cases h1 : alookup f (fechaScoresOf games preds) with
    | none =>
        cases h2 : alookup f (fechaScoresOf games' preds') with
        | none => rfl
        | some us' =>
            have hi1 : ¬ (alookup f (fechaScoresOf games preds)).isSome := by
              rw [h1]
              simp
            have hi2 : (alookup f (fechaScoresOf games' preds')).isSome := by
              rw [h2]
              simp
            rw [isSome_fechaScoresOf_iff] at hi1 hi2
            exfalso
            apply hi1
            obtain ⟨p, hp, fp, hfp, hfe⟩ := hi2
            exact ⟨p, hP.mem_iff.2 hp, fp, by rw [predFechaM_ext _ _ hgm p, hfp], hfe⟩
    | some us =>
        cases h2 : alookup f (fechaScoresOf games' preds') with
        | none =>
            have hi1 : (alookup f (fechaScoresOf games preds)).isSome := by
              rw [h1]
              simp
            have hi2 : ¬ (alookup f (fechaScoresOf games' preds')).isSome := by
              rw [h2]
              simp
            rw [isSome_fechaScoresOf_iff] at hi1 hi2
            exfalso
            apply hi2
            obtain ⟨p, hp, fp, hfp, hfe⟩ := hi1
            exact ⟨p, hP.mem_iff.1 hp, fp, by rw [← predFechaM_ext _ _ hgm p, hfp], hfe⟩
        | some us' =>
            have husnd : (us.map Prod.fst).Nodup :=
              hinner (f, us) (mem_of_alookup_eq_some f us _ h1)
            have husnd' : (us'.map Prod.fst).Nodup :=
              hinner' (f, us') (mem_of_alookup_eq_some f us' _ h2)
            have hlk : ∀ v, alookup v us = alookup v us' := by
              intro v
              have := lookup2_perm_ext games games' preds preds' hgm hP f v
              unfold lookup2 at this
              rw [h1, h2] at this
              simpa using this
            have hperm : us.Perm us' := inner_perm_of_lookup_ext us us' husnd husnd' hlk
            simp only [Option.getD_some]
            have hmax : atMax u us = atMax u us' := by
              unfold atMax
              rw [hlk u, maxValues_perm us us' hperm]
            rw [hmax]
            congr 1
            simp [hperm.length_eq]
  rw [countP_congr_mem _ _ _ (fun f _ => hpred f)]
  exact ((keys_fechaScoresOf_perm games games' preds preds' hgm hP).countP_eq _)

lemma nodup_keys_calculatePlayerStats (games : List Game) (preds : List Prediction) :
    ((calculatePlayerStats games preds).map Prod.fst).Nodup := by
  unfold calculatePlayerStats
  dsimp only
  rw [foldl_scoreStep_eq]
  apply nodup_keys_winFold
  apply nodup_keys_scoreFold
  exact nodup_keys_initFold preds [] (by simp)

lemma sorted_perm_eq {α : Type} (r : α → α → Prop) :
    ∀ (l₁ l₂ : List α), l₁.Perm l₂ → List.Sorted r l₁ → List.Sorted r l₂ →
      (∀ a ∈ l₁, ∀ b ∈ l₁, r a b → r b a → a = b) → l₁ = l₂ := by
  intro l₁
  induction l₁ with
  | nil =>
      intro l₂ hp _ _ _
      exact (hp.symm.eq_nil).symm ▸ rfl
  | cons a t ih =>
      intro l₂ hp hs₁ hs₂ ha
      cases l₂ with
      | nil => exact absurd hp.eq_nil (List.cons_ne_nil a t)
      | cons b t₂ =>
          have hab : a = b := by
            by_contra hne
            have hamem : a ∈ b :: t₂ := hp.mem_iff.1 (List.mem_cons_self a t)
            have hat₂ : a ∈ t₂ := by
              rcases List.mem_cons.1 hamem with h1 | h1
              · exact absurd h1 hne
              · exact h1
            have hbmem : b ∈ a :: t := hp.mem_iff.2 (List.mem_cons_self b t₂)
            have hbt : b ∈ t := by
              rcases List.mem_cons.1 hbmem with h1 | h1
              · exact absurd h1.symm hne
              · exact h1
            have hrab : r a b := List.rel_of_sorted_cons hs₁ b hbt
            have hrba : r b a := List.rel_of_sorted_cons hs₂ a hat₂
            exact hne (ha a (List.mem_cons_self a t) b (List.mem_cons_of_mem _ hbt) hrab hrba)
          subst hab
          have hpt : t.Perm t₂ := hp.cons_inv
          rw [ih t₂ hpt hs₁.of_cons hs₂.of_cons
            (fun x hx y hy => ha x (List.mem_cons_of_mem _ hx) y (List.mem_cons_of_mem _ hy))]

/-- C8 counterexample: as stated, order-independence fails.  With a duplicated
game id, permuting the games array changes the mapping (the last entry wins
the game map); and permuting the predictions array can change the ranking —
both when two users are fully tied (stable sort keeps insertion order, which
the permutation flips) and when a user has two equal-timestamp predictions
with different playerNames (the display name used by the name tie-break
follows input order). -/
theorem claim8_counterexample :
    ([mkGame "g" (some "upcoming") none JsVal.null JsVal.undef JsVal.null JsVal.undef none none,
      mkGame "g" (some "finished") none (JsVal.num 2) JsVal.undef (JsVal.num 1) JsVal.undef
        none none].Perm
      [mkGame "g" (some "finished") none (JsVal.num 2) JsVal.undef (JsVal.num 1) JsVal.undef
          none none,
        mkGame "g" (some "upcoming") none JsVal.null JsVal.undef JsVal.null JsVal.undef
          none none] ∧
      alookup "x" (calculatePlayerStats
          [mkGame "g" (some "finished") none (JsVal.num 2) JsVal.undef (JsVal.num 1) JsVal.undef
              none none,
            mkGame "g" (some "upcoming") none JsVal.null JsVal.undef JsVal.null JsVal.undef
              none none]
          [mkPred (some "x") "g" (JsVal.num 2) (JsVal.num 1) none none]) ≠
        alookup "x" (calculatePlayerStats
          [mkGame "g" (some "upcoming") none JsVal.null JsVal.undef JsVal.null JsVal.undef
              none none,
            mkGame "g" (some "finished") none (JsVal.num 2) JsVal.undef (JsVal.num 1) JsVal.undef
              none none]
          [mkPred (some "x") "g" (JsVal.num 2) (JsVal.num 1) none none])) ∧
    ([mkPred (some "b") "nope" JsVal.null JsVal.null (some "Z") none,
      mkPred (some "a") "nope" JsVal.null JsVal.null (some "Z") none].Perm
      [mkPred (some "a") "nope" JsVal.null JsVal.null (some "Z") none,
        mkPred (some "b") "nope" JsVal.null JsVal.null (some "Z") none] ∧
      sortPlayersByStats
          (calculatePlayerStats []
            [mkPred (some "a") "nope" JsVal.null JsVal.null (some "Z") none,
             mkPred (some "b") "nope" JsVal.null JsVal.null (some "Z") none])
          [mkPred (some "a") "nope" JsVal.null JsVal.null (some "Z") none,
           mkPred (some "b") "nope" JsVal.null JsVal.null (some "Z") none] ≠
        sortPlayersByStats
          (calculatePlayerStats []
            [mkPred (some "b") "nope" JsVal.null JsVal.null (some "Z") none,
             mkPred (some "a") "nope" JsVal.null JsVal.null (some "Z") none])
          [mkPred (some "b") "nope" JsVal.null JsVal.null (some "Z") none,
           mkPred (some "a") "nope" JsVal.null JsVal.null (some "Z") none]) ∧
    ([mkPred (some "a") "nope" JsVal.null JsVal.null (some "Z") (some 5),
      mkPred (some "a") "nope" JsVal.null JsVal.null (some "A") (some 5),
      mkPred (some "m") "nope" JsVal.null JsVal.null (some "M") (some 1)].Perm
      [mkPred (some "a") "nope" JsVal.null JsVal.null (some "A") (some 5),
        mkPred (some "a") "nope" JsVal.null JsVal.null (some "Z") (some 5),
        mkPred (some "m") "nope" JsVal.null JsVal.null (some "M") (some 1)] ∧
      sortPlayersByStats
          (calculatePlayerStats []
            [mkPred (some "a") "nope" JsVal.null JsVal.null (some "A") (some 5),
             mkPred (some "a") "nope" JsVal.null JsVal.null (some "Z") (some 5),
             mkPred (some "m") "nope" JsVal.null JsVal.null (some "M") (some 1)])
          [mkPred (some "a") "nope" JsVal.null JsVal.null (some "A") (some 5),
           mkPred (some "a") "nope" JsVal.null JsVal.null (some "Z") (some 5),
           mkPred (some "m") "nope" JsVal.null JsVal.null (some "M") (some 1)] ≠
        sortPlayersByStats
          (calculatePlayerStats []
            [mkPred (some "a") "nope" JsVal.null JsVal.null (some "Z") (some 5),
             mkPred (some "a") "nope" JsVal.null JsVal.null (some "A") (some 5),
             mkPred (some "m") "nope" JsVal.null JsVal.null (some "M") (some 1)])
          [mkPred (some "a") "nope" JsVal.null JsVal.null (some "Z") (some 5),
           mkPred (some "a") "nope" JsVal.null JsVal.null (some "A") (some 5),
           mkPred (some "m") "nope" JsVal.null JsVal.null (some "M") (some 1)]) :=
  ⟨⟨List.Perm.swap _ _ _, by decide⟩, ⟨List.Perm.swap _ _ _, by decide⟩,
   ⟨List.Perm.swap _ _ _, by decide⟩⟩

/-- C8 amended: with unique game ids, permuting the games and predictions
arrays leaves the userId-to-stats mapping unchanged; and the sorted ranking
is also unchanged provided the permutation does not change any display name
and no two distinct entries are fully tied (equal on all three ranking stats
and on display name). -/
theorem claim8_perm_invariance_amended (games games' : List Game)
    (preds preds' : List Prediction)
    (hG : games.Perm games') (hP : preds.Perm preds')
    (hnd : (games.map Game.id).Nodup) :
    (∀ u, alookup u (calculatePlayerStats games preds) =
        alookup u (calculatePlayerStats games' preds')) ∧
    ((∀ u, getLatestPlayerName preds u = getLatestPlayerName preds' u) →
      (∀ e₁ ∈ calculatePlayerStats games preds, ∀ e₂ ∈ calculatePlayerStats games preds,
        e₁.2.totalPoints = e₂.2.totalPoints → e₁.2.fechasWonCount = e₂.2.fechasWonCount →
        e₁.2.perfectScoresCount = e₂.2.perfectScoresCount →
        getLatestPlayerName preds e₁.1 = getLatestPlayerName preds e₂.1 → e₁ = e₂) →
      sortPlayersByStats (calculatePlayerStats games preds) preds =
        sortPlayersByStats (calculatePlayerStats games' preds') preds') := by
  have hgm : ∀ gid, alookup gid (buildGameMap games) = alookup gid (buildGameMap games') :=
    fun gid => buildGameMap_perm_ext games games' hG hnd gid
  have hmap : ∀ u, alookup u (calculatePlayerStats games preds) =
      alookup u (calculatePlayerStats games' preds') := by
    intro u
    rw [alookup_calculatePlayerStats, alookup_calculatePlayerStats]
    have hmem : u ∈ preds.map uidOf ↔ u ∈ preds'.map uidOf := (hP.map uidOf).mem_iff
    by_cases hm : u ∈ preds.map uidOf
    · rw [if_pos hm, if_pos (hmem.1 hm)]
      have hperm := userScoresM_perm_ext _ _ preds preds' hgm hP u
      rw [hperm.sum_eq, hperm.length_eq, hperm.count_eq 10,
        fechaWins_perm_ext games games' preds preds' hgm hP u]
    · rw [if_neg hm, if_neg (fun hc => hm (hmem.2 hc))]
  refine ⟨hmap, ?_⟩
  intro hnames hties
  have hndk : ((calculatePlayerStats games preds).map Prod.fst).Nodup :=
    nodup_keys_calculatePlayerStats games preds
  have hndk' : ((calculatePlayerStats games' preds').map Prod.fst).Nodup :=
    nodup_keys_calculatePlayerStats games' preds'
  have hSL : (calculatePlayerStats games preds).Perm (calculatePlayerStats games' preds') := by
    rw [List.perm_ext_iff_of_nodup (List.Nodup.of_map _ hndk) (List.Nodup.of_map _ hndk')]
    rintro ⟨u, s⟩
    rw [mem_pair_iff_alookup _ hndk u s, mem_pair_iff_alookup _ hndk' u s, hmap u]
  have hcmp : ∀ a b : String × PlayerStats,
      comparePlayers preds a b = comparePlayers preds' a b := by
    intro a b
    unfold comparePlayers
    rw [hnames a.1, hnames b.1]
  haveI htr : IsTrans (String × PlayerStats)
      (fun a b => comparePlayers preds a b ≤ 0) := by
    refine ⟨fun a b c hab hbc => ?_⟩
    rw [comparePlayers_le_iff] at hab hbc ⊢
    exact ranksAtLeast_trans preds a b c hab hbc
  haveI hto : IsTotal (String × PlayerStats)
      (fun a b => comparePlayers preds a b ≤ 0) := by
    refine ⟨fun a b => ?_⟩
    rw [comparePlayers_le_iff, comparePlayers_le_iff]
    exact ranksAtLeast_total preds a b
  haveI htr' : IsTrans (String × PlayerStats)
      (fun a b => comparePlayers preds' a b ≤ 0) := by
    refine ⟨fun a b c hab hbc => ?_⟩
    rw [comparePlayers_le_iff] at hab hbc ⊢
    exact ranksAtLeast_trans preds' a b c hab hbc
  haveI hto' : IsTotal (String × PlayerStats)
      (fun a b => comparePlayers preds' a b ≤ 0) := by
    refine ⟨fun a b => ?_⟩
    rw [comparePlayers_le_iff, comparePlayers_le_iff]
    exact ranksAtLeast_total preds' a b
  have hs1 : List.Sorted (fun a b => comparePlayers preds a b ≤ 0)
      (sortPlayersByStats (calculatePlayerStats games preds) preds) :=
    List.sorted_insertionSort _ _
  have hs2pre : List.Sorted (fun a b => comparePlayers preds' a b ≤ 0)
      (sortPlayersByStats (calculatePlayerStats games' preds') preds') :=
    List.sorted_insertionSort _ _
  have hs2 : List.Sorted (fun a b => comparePlayers preds a b ≤ 0)
      (sortPlayersByStats (calculatePlayerStats games' preds') preds') := by
    refine hs2pre.imp ?_
    intro a b hab
    rw [hcmp a b]
    exact hab
  have hsp1 : (sortPlayersByStats (calculatePlayerStats games preds) preds).Perm
      (calculatePlayerStats games preds) := List.perm_insertionSort _ _
  have hsp2 : (sortPlayersByStats (calculatePlayerStats games' preds') preds').Perm
      (calculatePlayerStats games' preds') := List.perm_insertionSort _ _
  have hps : (sortPlayersByStats (calculatePlayerStats games preds) preds).Perm
      (sortPlayersByStats (calculatePlayerStats games' preds') preds') :=
    (hsp1.trans hSL).trans hsp2.symm
  apply sorted_perm_eq (fun a b => comparePlayers preds a b ≤ 0) _ _ hps hs1 hs2
  intro a ha b hb hab hba
  rw [comparePlayers_le_iff] at hab hba
  obtain ⟨h1, h2, h3, h4⟩ := ranksAtLeast_antisymm_parts preds a b hab hba
  exact hties a (hsp1.mem_iff.1 ha) b (hsp1.mem_iff.1 hb) h1 h2 h3 h4

/-- Witness for C8 (amended) at a concrete input with identity permutations
and no ties. -/
theorem claim8_perm_invariance_amended_witness :
    (∀ u, alookup u (calculatePlayerStats
        [mkGame "g1" (some "finished") none (JsVal.num 2) JsVal.undef (JsVal.num 1) JsVal.undef
          (some "W1") none]
        [mkPred (some "A") "g1" (JsVal.num 2) (JsVal.num 1) (some "Ann") (some 1),
         mkPred (some "B") "g1" (JsVal.num 3) (JsVal.num 1) (some "Bob") (some 2)]) =
      alookup u (calculatePlayerStats
        [mkGame "g1" (some "finished") none (JsVal.num 2) JsVal.undef (JsVal.num 1) JsVal.undef
          (some "W1") none]
        [mkPred (some "A") "g1" (JsVal.num 2) (JsVal.num 1) (some "Ann") (some 1),
         mkPred (some "B") "g1" (JsVal.num 3) (JsVal.num 1) (some "Bob") (some 2)])) ∧
    ((∀ u, getLatestPlayerName
        [mkPred (some "A") "g1" (JsVal.num 2) (JsVal.num 1) (some "Ann") (some 1),
         mkPred (some "B") "g1" (JsVal.num 3) (JsVal.num 1) (some "Bob") (some 2)] u =
      getLatestPlayerName
        [mkPred (some "A") "g1" (JsVal.num 2) (JsVal.num 1) (some "Ann") (some 1),
         mkPred (some "B") "g1" (JsVal.num 3) (JsVal.num 1) (some "Bob") (some 2)] u) →
      (∀ e₁ ∈ calculatePlayerStats
          [mkGame "g1" (some "finished") none (JsVal.num 2) JsVal.undef (JsVal.num 1) JsVal.undef
            (some "W1") none]
          [mkPred (some "A") "g1" (JsVal.num 2) (JsVal.num 1) (some "Ann") (some 1),
           mkPred (some "B") "g1" (JsVal.num 3) (JsVal.num 1) (some "Bob") (some 2)],
        ∀ e₂ ∈ calculatePlayerStats
          [mkGame "g1" (some "finished") none (JsVal.num 2) JsVal.undef (JsVal.num 1) JsVal.undef
            (some "W1") none]
          [mkPred (some "A") "g1" (JsVal.num 2) (JsVal.num 1) (some "Ann") (some 1),
           mkPred (some "B") "g1" (JsVal.num 3) (JsVal.num 1) (some "Bob") (some 2)],
        e₁.2.totalPoints = e₂.2.totalPoints → e₁.2.fechasWonCount = e₂.2.fechasWonCount →
        e₁.2.perfectScoresCount = e₂.2.perfectScoresCount →
        getLatestPlayerName
          [mkPred (some "A") "g1" (JsVal.num 2) (JsVal.num 1) (some "Ann") (some 1),
           mkPred (some "B") "g1" (JsVal.num 3) (JsVal.num 1) (some "Bob") (some 2)] e₁.1 =
        getLatestPlayerName
          [mkPred (some "A") "g1" (JsVal.num 2) (JsVal.num 1) (some "Ann") (some 1),
           mkPred (some "B") "g1" (JsVal.num 3) (JsVal.num 1) (some "Bob") (some 2)] e₂.1 →
        e₁ = e₂) →
      sortPlayersByStats
          (calculatePlayerStats
            [mkGame "g1" (some "finished") none (JsVal.num 2) JsVal.undef (JsVal.num 1)
              JsVal.undef (some "W1") none]
            [mkPred (some "A") "g1" (JsVal.num 2) (JsVal.num 1) (some "Ann") (some 1),
             mkPred (some "B") "g1" (JsVal.num 3) (JsVal.num 1) (some "Bob") (some 2)])
          [mkPred (some "A") "g1" (JsVal.num 2) (JsVal.num 1) (some "Ann") (some 1),
           mkPred (some "B") "g1" (JsVal.num 3) (JsVal.num 1) (some "Bob") (some 2)] =
        sortPlayersByStats
          (calculatePlayerStats
            [mkGame "g1" (some "finished") none (JsVal.num 2) JsVal.undef (JsVal.num 1)
              JsVal.undef (some "W1") none]
            [mkPred (some "A") "g1" (JsVal.num 2) (JsVal.num 1) (some "Ann") (some 1),
             mkPred (some "B") "g1" (JsVal.num 3) (JsVal.num 1) (some "Bob") (some 2)])
          [mkPred (some "A") "g1" (JsVal.num 2) (JsVal.num 1) (some "Ann") (some 1),
           mkPred (some "B") "g1" (JsVal.num 3) (JsVal.num 1) (some "Bob") (some 2)]) :=
  claim8_perm_invariance_amended
    [mkGame "g1" (some "finished") none (JsVal.num 2) JsVal.undef (JsVal.num 1) JsVal.undef
      (some "W1") none]
    [mkGame "g1" (some "finished") none (JsVal.num 2) JsVal.undef (JsVal.num 1) JsVal.undef
      (some "W1") none]
    [mkPred (some "A") "g1" (JsVal.num 2) (JsVal.num 1) (some "Ann") (some 1),
     mkPred (some "B") "g1" (JsVal.num 3) (JsVal.num 1) (some "Bob") (some 2)]
    [mkPred (some "A") "g1" (JsVal.num 2) (JsVal.num 1) (some "Ann") (some 1),
     mkPred (some "B") "g1" (JsVal.num 3) (JsVal.num 1) (some "Bob") (some 2)]
    (List.Perm.refl _) (List.Perm.refl _) (by decide)
